import Mathlib

/-!
# Text layout of `src/freetype/ft_text.c`

A shallow embedding of the run layout engine (`PGFT_LoadFontText`), the glyph
metrics resolver (`PGFT_LoadGlyph`, `fill_metrics`, `GetLoadFlags`) and the
small accessors around them, followed by the properties proved about them.

Conventions of the embedding

* `FT_Pos`, `FT_Fixed` and `FT_Angle` values are exact integers (`Int`).
* A C function that returns `NULL` or `-1` on failure returns `none` here.
* The FreeType library itself is not part of the sources: every FreeType call
  the code makes is a field of the structure `FreeType`, so every theorem
  holds for any behaviour of the library.
* The header `ft_wrap.h` is not part of the sources.  Its 26.6 helpers are
  modelled from the specification, its two sentinels are fields of `Limits`.
-/

namespace FtText

/-! ## Data model -/

/-- A FreeType vector, `FT_Vector`: two 26.6 coordinates. -/
structure FT_Vector where
  x : Int
  y : Int
deriving DecidableEq, Repr

/-- A FreeType 2x2 matrix, `FT_Matrix`, 16.16 coefficients. -/
structure FT_Matrix where
  xx : Int
  xy : Int
  yx : Int
  yy : Int
deriving DecidableEq, Repr

/-- The fields of `FontRenderMode` the code reads.  A test
`render->style & FT_STYLE_BOLD` of the source is the field `bold`, likewise
`oblique` and `underline`; a test `render->render_flags & FT_RFLAG_ANTIALIAS`
is the field `antialias`, likewise `autohint` and `hinted`. -/
structure FontRenderMode where
  pt_size : Int
  rotation_angle : Int
  bold : Bool
  oblique : Bool
  underline : Bool
  antialias : Bool
  autohint : Bool
  hinted : Bool
deriving DecidableEq, Repr

/-- The raw metrics of the glyph slot, `FT_Glyph_Metrics`. -/
structure FT_Glyph_Metrics where
  horiBearingX : Int
  horiBearingY : Int
  horiAdvance : Int
  vertBearingX : Int
  vertBearingY : Int
  vertAdvance : Int
deriving DecidableEq, Repr

/-- The fields of a rasterized glyph, `FT_BitmapGlyph`, the code reads:
`left`, `top`, `bitmap.width` and `bitmap.rows`. -/
structure FT_BitmapGlyph where
  left : Int
  top : Int
  width : Int
  rows : Int
deriving DecidableEq, Repr

/-- One metrics record of a glyph, `FontMetrics`. -/
structure FontMetrics where
  bearing_x : Int
  bearing_y : Int
  bearing_rotated : FT_Vector
  advance_rotated : FT_Vector
deriving DecidableEq, Repr

/-- A resolved glyph, `FontGlyph`. -/
structure FontGlyph where
  glyph_index : Nat
  image : FT_BitmapGlyph
  width : Int
  height : Int
  bold_strength : Int
  h_metrics : FontMetrics
  v_metrics : FontMetrics
deriving DecidableEq, Repr

/-- The fields of a sized face, `FT_Face`, the layout reads:
`underline_position`, `underline_thickness` and `size->metrics.y_scale`. -/
structure FT_Face where
  underline_position : Int
  underline_thickness : Int
  y_scale : Int
deriving DecidableEq, Repr

/-- The fields of `PyFreeTypeFont` the layout reads. -/
structure PyFreeTypeFont where
  vertical : Bool
  kerning : Bool
deriving DecidableEq, Repr

/-- The layout state of a font, `FontText`.  The two buffers are lists of
slots: a slot is `none` until the code writes it (fresh `_PGFT_malloc`
storage) and keeps what an earlier call wrote when the storage is reused. -/
structure FontText where
  buffer_size : Nat
  length : Nat
  glyphs : List (Option FontGlyph)
  posns : List (Option FT_Vector)
  width : Int
  height : Int
  left : Int
  top : Int
  offset : FT_Vector
  advance : FT_Vector
  underline_pos : Int
  underline_size : Int
deriving DecidableEq, Repr

/-- The FreeType calls made by the code, for an outline type `O` (the
`FT_Glyph` image before rasterization).  A call that can report an error
returns `none` for it. -/
structure FreeType (O : Type) where
  /-- Character map lookup; glyph index 0 means the codepoint has no glyph. -/
  FTC_CMapCache_Lookup : Nat → Nat
  /-- Load glyph index with load flags into the slot; yields the slot metrics. -/
  FT_Load_Glyph : Nat → Nat → Option FT_Glyph_Metrics
  /-- Copy the glyph image of the slot loaded for (glyph index, load flags). -/
  FT_Get_Glyph : Nat → Nat → Option O
  FT_Outline_Embolden : O → Int → Option O
  FT_Outline_Transform : O → FT_Matrix → O
  FT_Glyph_Transform : O → FT_Matrix → FT_Vector → Option O
  /-- Rasterize; the flag is true for `FT_RENDER_MODE_NORMAL`, false for
  `FT_RENDER_MODE_MONO`. -/
  FT_Glyph_To_Bitmap : O → Bool → Option FT_BitmapGlyph
  FT_Vector_Unit : Int → FT_Vector
  FT_Vector_Rotate : FT_Vector → Int → FT_Vector
  FT_Vector_Length : FT_Vector → Int
  FT_MulFix : Int → Int → Int
  /-- Unfitted kerning between two glyph indices of a face. -/
  FT_Get_Kerning : FT_Face → Nat → Nat → Option FT_Vector

/-- The two sentinels `PGFT_MAX_6` and `PGFT_MIN_6` of `ft_wrap.h`, which is
not part of the sources: they are taken as parameters. -/
structure Limits where
  PGFT_MAX_6 : Int
  PGFT_MIN_6 : Int
deriving DecidableEq, Repr

/-- What the surrounding module provides to one `PGFT_LoadFontText` call:
the sized face lookup `_PGFT_GetFaceSized` (by point size), whether
`_PGFT_malloc` succeeds for the glyph and for the position buffer (by element
count), and the glyph cache lookup `PGFT_Cache_FindGlyph` (by codepoint and
render mode). -/
structure Host where
  getFaceSized : Int → Option FT_Face
  malloc_glyphs : Nat → Bool
  malloc_posns : Nat → Bool
  findGlyph : Nat → FontRenderMode → Option FontGlyph

/-! ## Fixed-point helpers -/

/-- Modelled from the spec: the helper `PGFT_FLOOR` of `ft_wrap.h` (absent
from the sources), rounding a 26.6 value down to a multiple of 64. -/
def PGFT_FLOOR (x : Int) : Int := x / 64 * 64

/-- Modelled from the spec: the helper `PGFT_CEIL` of `ft_wrap.h` (absent
from the sources), rounding a 26.6 value up to a multiple of 64. -/
def PGFT_CEIL (x : Int) : Int := (x + 63) / 64 * 64

/-- Modelled from the spec: the helper `PGFT_ROUND` of `ft_wrap.h` (absent
from the sources), `round(v) = floor(v + 32)`. -/
def PGFT_ROUND (x : Int) : Int := (x + 32) / 64 * 64

/-- Modelled from the spec: the helper `PGFT_TRUNC` of `ft_wrap.h` (absent
from the sources), dividing a 26.6 value by 64 (64 units are one pixel). -/
def PGFT_TRUNC (x : Int) : Int := x / 64

/-- Modelled from the spec: the helper `PGFT_INT_TO_6` of `ft_wrap.h` (absent
from the sources), an integer as a 26.6 value (64 units are one pixel). -/
def PGFT_INT_TO_6 (x : Int) : Int := x * 64

/-- The constant `PIXEL_SIZE`, `(FT_Fixed)64`. -/
def PIXEL_SIZE : Int := 64

/-- The constant `BOLD_STRENGTH`, `(FT_Fixed)(0.65 * PIXEL_SIZE)`: the cast truncates
41.6 to 41. -/
def BOLD_STRENGTH : Int := Int.tdiv (65 * PIXEL_SIZE) 100

/-- The constant `BOLD_ADVANCE`, `BOLD_STRENGTH * 4`. -/
def BOLD_ADVANCE : Int := BOLD_STRENGTH * 4

/-- The constant `UNICODE_SPACE`, the codepoint of the space character. -/
def UNICODE_SPACE : Nat := 32

/-! ## The run layout engine: `PGFT_LoadFontText` -/

/-- The function `PGFT_FontTextInit`, on the layout state: `buffer_size = 0` and both
buffers `NULL`.  The other fields are not written by the source; they are
zero here.  The glyph cache initialisation it also performs (and whose
failure it reports) is outside the layout state. -/
def PGFT_FontTextInit : FontText :=
  { buffer_size := 0, length := 0, glyphs := [], posns := [],
    width := 0, height := 0, left := 0, top := 0,
    offset := ⟨0, 0⟩, advance := ⟨0, 0⟩,
    underline_pos := 0, underline_size := 0 }

/-- The loop variables of `PGFT_LoadFontText`.  `count` is the offset of the
two write cursors `glyph_array` and `next_pos` from the start of the buffers;
`glyphs` and `posns` are the buffers themselves. -/
structure LoopState where
  pen : FT_Vector
  pen1 : FT_Vector
  pen2 : FT_Vector
  prev_glyph_index : Nat
  min_x : Int
  max_x : Int
  min_y : Int
  max_y : Int
  top : Int
  glyphs : List (Option FontGlyph)
  posns : List (Option FT_Vector)
  count : Nat
deriving DecidableEq, Repr

/-- The loop variables before the first iteration (lines 107-130 and
180-182).  `pen2` has no initialiser in the source and is assigned at the
start of every iteration before it is read; it starts at the origin here. -/
def initLoop (lim : Limits) (ftext : FontText) : LoopState :=
  { pen := ⟨0, 0⟩, pen1 := ⟨0, 0⟩, pen2 := ⟨0, 0⟩,
    prev_glyph_index := 0,
    min_x := lim.PGFT_MAX_6, max_x := lim.PGFT_MIN_6,
    min_y := lim.PGFT_MAX_6, max_y := lim.PGFT_MIN_6,
    top := lim.PGFT_MIN_6,
    glyphs := ftext.glyphs, posns := ftext.posns, count := 0 }

/-- Lines 216-221: rotate the kerning vector when the angle is non-zero and
add its rounded components to the pen. -/
def kernedPen {O : Type} (ft : FreeType O) (angle : Int) (pen kerning : FT_Vector) :
    FT_Vector :=
  let kerning := if angle ≠ 0 then ft.FT_Vector_Rotate kerning angle else kerning
  ⟨pen.x + PGFT_ROUND kerning.x, pen.y + PGFT_ROUND kerning.y⟩

/-- Lines 222-226: the overshoot guard. -/
def overshootGuard {O : Type} (ft : FreeType O) (pen2 pen : FT_Vector) : FT_Vector :=
  if ft.FT_Vector_Length pen2 > ft.FT_Vector_Length pen then pen2 else pen

/-- Lines 205-227: the kerning block.  `none` is the error return of line
214; when the block is not entered the pen is unchanged. -/
def applyKerning {O : Type} (ft : FreeType O) (face : FT_Face) (use_kerning : Bool)
    (angle : Int) (prev_glyph_index glyph_index : Nat) (pen2 pen : FT_Vector) :
    Option FT_Vector :=
  if use_kerning = true ∧ prev_glyph_index ≠ 0 then
    match ft.FT_Get_Kerning face prev_glyph_index glyph_index with
    | none => none
    | some kerning => some (overshootGuard ft pen2 (kernedPen ft angle pen kerning))
  else
    some pen

/-- The position recorded for a glyph placed at `pen` (lines 243, 255, 268). -/
def glyphPos (vertical : Bool) (pen : FT_Vector) (metrics : FontMetrics) : FT_Vector :=
  if vertical then
    ⟨pen.x + metrics.bearing_rotated.x, pen.y + metrics.bearing_rotated.y⟩
  else
    ⟨pen.x + metrics.bearing_rotated.x, pen.y - metrics.bearing_rotated.y⟩

/-- The pen after a glyph placed at `pen` (lines 244, 256, 269). -/
def advancePen (vertical : Bool) (pen : FT_Vector) (metrics : FontMetrics) : FT_Vector :=
  if vertical then
    ⟨pen.x + metrics.advance_rotated.x, pen.y + metrics.advance_rotated.y⟩
  else
    ⟨pen.x + metrics.advance_rotated.x, pen.y - metrics.advance_rotated.y⟩

/-- Lines 229-272: place `glyph` at the (kerned) pen `pen`, in the loop state
`s` whose `pen1`, `pen2` are already those of this iteration. -/
def placeGlyph (vertical : Bool) (s : LoopState) (pen : FT_Vector) (glyph : FontGlyph) :
    LoopState :=
  let glyph_width := glyph.width
  let glyph_height := glyph.height
  let metrics := if vertical then glyph.v_metrics else glyph.h_metrics
  let top := if metrics.bearing_rotated.y > s.top then metrics.bearing_rotated.y else s.top
  let min_x :=
    if pen.x + metrics.bearing_rotated.x < s.min_x then pen.x + metrics.bearing_rotated.x
    else s.min_x
  let max_x :=
    if pen.x + metrics.bearing_rotated.x + glyph_width > s.max_x then
      pen.x + metrics.bearing_rotated.x + glyph_width
    else s.max_x
  let min_y :=
    if vertical then
      if pen.y + metrics.bearing_rotated.y < s.min_y then pen.y + metrics.bearing_rotated.y
      else s.min_y
    else
      if pen.y - metrics.bearing_rotated.y < s.min_y then pen.y - metrics.bearing_rotated.y
      else s.min_y
  let max_y :=
    if vertical then
      if pen.y + metrics.bearing_rotated.y + glyph_height > s.max_y then
        pen.y + metrics.bearing_rotated.y + glyph_height
      else s.max_y
    else
      if pen.y - metrics.bearing_rotated.y + glyph_height > s.max_y then
        pen.y - metrics.bearing_rotated.y + glyph_height
      else s.max_y
  { pen := advancePen vertical pen metrics,
    pen1 := s.pen1, pen2 := s.pen2,
    prev_glyph_index := glyph.glyph_index,
    min_x := min_x, max_x := max_x, min_y := min_y, max_y := max_y,
    top := top,
    glyphs := s.glyphs.set s.count (some glyph),
    posns := s.posns.set s.count (some (glyphPos vertical pen metrics)),
    count := s.count + 1 }

/-- One iteration of the loop of lines 184-273 on the codepoint `ch`; `none`
is the error return of line 214. -/
def loopStep {O : Type} (ft : FreeType O) (host : Host) (face : FT_Face)
    (font : PyFreeTypeFont) (render : FontRenderMode) (s : LoopState) (ch : Nat) :
    Option LoopState :=
  let s := { s with pen2 := s.pen1, pen1 := s.pen }
  match host.findGlyph ch render with
  | none => some s
  | some glyph =>
    match applyKerning ft face font.kerning render.rotation_angle s.prev_glyph_index
        glyph.glyph_index s.pen2 s.pen with
    | none => none
    | some pen => some (placeGlyph font.vertical s pen glyph)

/-- The loop of lines 184-273 over the codepoints of the text. -/
def layoutLoop {O : Type} (ft : FreeType O) (host : Host) (face : FT_Face)
    (font : PyFreeTypeFont) (render : FontRenderMode) :
    LoopState → List Nat → Option LoopState
  | s, [] => some s
  | s, ch :: rest =>
    match loopStep ft host face font render s ch with
    | none => none
    | some s1 => layoutLoop ft host face font render s1 rest

/-- Lines 152-172: grow the two buffers when the text is longer than the
current capacity; `none` is an allocation failure. -/
def growBuffers (host : Host) (ftext : FontText) (string_length : Nat) : Option FontText :=
  if string_length > ftext.buffer_size then
    if host.malloc_glyphs string_length = true then
      if host.malloc_posns string_length = true then
        some { ftext with
          glyphs := List.replicate string_length none,
          posns := List.replicate string_length none,
          buffer_size := string_length }
      else none
    else none
  else some ftext

/-- The extents after the loop, with the underline fields. -/
structure Extents where
  min_x : Int
  max_x : Int
  min_y : Int
  max_y : Int
  underline_pos : Int
  underline_size : Int
deriving DecidableEq, Repr

/-- Lines 274-281: fold the final pen into the extents. -/
def foldPen (s : LoopState) : Extents :=
  let max_x := if s.pen.x > s.max_x then s.pen.x else s.max_x
  let min_x := if s.pen.x < s.min_x then s.pen.x else s.min_x
  let max_y := if s.pen.y > s.max_y then s.pen.y else s.max_y
  let min_y := if s.pen.y < s.min_y then s.pen.y else s.min_y
  { min_x := min_x, max_x := max_x, min_y := min_y, max_y := max_y,
    underline_pos := 0, underline_size := 0 }

/-- Lines 131 and 283-300: the underline block.  Both divisions are C
divisions, truncating toward zero. -/
def applyUnderline {O : Type} (ft : FreeType O) (face : FT_Face) (font : PyFreeTypeFont)
    (render : FontRenderMode) (e : Extents) : Extents :=
  let bold_str := if render.bold = true then BOLD_STRENGTH else 0
  if render.underline = true ∧ font.vertical = false ∧ render.rotation_angle = 0 then
    let scale := face.y_scale
    let underline_pos := Int.tdiv (-(ft.FT_MulFix face.underline_position scale)) 4
    let underline_size := ft.FT_MulFix face.underline_thickness scale + bold_str
    let max_y_underline := underline_pos + Int.tdiv underline_size 2
    { e with
      max_y := if max_y_underline > e.max_y then max_y_underline else e.max_y,
      underline_pos := underline_pos,
      underline_size := underline_size }
  else e

/-- The extents used by the finalisation: lines 274-300. -/
def finalExtents {O : Type} (ft : FreeType O) (face : FT_Face) (font : PyFreeTypeFont)
    (render : FontRenderMode) (s : LoopState) : Extents :=
  applyUnderline ft face font render (foldPen s)

/-- Lines 299-300 and 323-332: write the results into the layout state. -/
def finalise (ftext : FontText) (s : LoopState) (e : Extents) : FontText :=
  { ftext with
    glyphs := s.glyphs,
    posns := s.posns,
    underline_pos := e.underline_pos,
    underline_size := e.underline_size,
    width := PGFT_TRUNC (PGFT_CEIL e.max_x - PGFT_FLOOR e.min_x),
    offset := ⟨-e.min_x, -e.min_y⟩,
    advance := s.pen,
    left := PGFT_TRUNC (PGFT_FLOOR e.min_x),
    height := PGFT_TRUNC (PGFT_CEIL e.max_y - PGFT_FLOOR e.min_y),
    top := PGFT_TRUNC (PGFT_CEIL s.top) }

/-- Lines 174-175: the state handed to the loop, with `length` set to the
length of the text and both underline fields reset. -/
def resetText (ftext : FontText) (string_length : Nat) : FontText :=
  { ftext with length := string_length, underline_pos := 0, underline_size := 0 }

/-- The function `PGFT_LoadFontText`: lay out the codepoints `text` with the layout state
`ftext` of the font.  `none` is a `NULL` return (no sized face, allocation
failure, kerning error); otherwise the result is the updated layout state.
The cache cleanup of line 149 acts on the glyph cache only, which is behind
`Host.findGlyph`. -/
def PGFT_LoadFontText {O : Type} (ft : FreeType O) (lim : Limits) (host : Host)
    (font : PyFreeTypeFont) (ftext : FontText) (render : FontRenderMode)
    (text : List Nat) : Option FontText :=
  let string_length := text.length
  match host.getFaceSized render.pt_size with
  | none => none
  | some face =>
    match growBuffers host ftext string_length with
    | none => none
    | some ftext1 =>
      let ftext2 := resetText ftext1 string_length
      match layoutLoop ft host face font render (initLoop lim ftext2) text with
      | none => none
      | some s => some (finalise ftext2 s (finalExtents ft face font render s))

/-- The glyph and position pairs a layout state reports: the first `length`
slots of the two buffers. -/
def FontText.run (t : FontText) : List (Option FontGlyph × Option FT_Vector) :=
  (t.glyphs.zip t.posns).take t.length

/-! ## The glyph metrics resolver: `PGFT_LoadGlyph` -/

/-- FreeType load flag `FT_LOAD_DEFAULT`. -/
def FT_LOAD_DEFAULT : Nat := 0

/-- FreeType load flag `FT_LOAD_NO_HINTING`, bit 1. -/
def FT_LOAD_NO_HINTING : Nat := 2

/-- FreeType load flag `FT_LOAD_FORCE_AUTOHINT`, bit 5. -/
def FT_LOAD_FORCE_AUTOHINT : Nat := 32

/-- FreeType load flag `FT_LOAD_IGNORE_GLOBAL_ADVANCE_WIDTH`, bit 9. -/
def FT_LOAD_IGNORE_GLOBAL_ADVANCE_WIDTH : Nat := 512

/-- FreeType load target `FT_LOAD_TARGET_NORMAL`: the render mode
`FT_RENDER_MODE_NORMAL` (0) in bits 16-19. -/
def FT_LOAD_TARGET_NORMAL : Nat := 0

/-- The function `GetLoadFlags`: the FreeType load flags of a render mode. -/
def GetLoadFlags (render : FontRenderMode) : Nat :=
  let load_flags := FT_LOAD_DEFAULT
  let load_flags := load_flags ||| FT_LOAD_IGNORE_GLOBAL_ADVANCE_WIDTH
  let load_flags :=
    if render.autohint = true then load_flags ||| FT_LOAD_FORCE_AUTOHINT else load_flags
  if render.hinted = true then load_flags ||| FT_LOAD_TARGET_NORMAL
  else load_flags ||| FT_LOAD_NO_HINTING

/-- The function `fill_metrics`: one metrics record from its four parts. -/
def fill_metrics (bearing_x bearing_y : Int) (bearing_rotated advance_rotated : FT_Vector) :
    FontMetrics :=
  { bearing_x := bearing_x, bearing_y := bearing_y,
    bearing_rotated := ⟨bearing_rotated.x, bearing_rotated.y⟩,
    advance_rotated := ⟨advance_rotated.x, advance_rotated.y⟩ }

/-- The matrix `PGFT_SlantMatrix`: `SLANT_FACTOR * (1 << 16)` is 14417.92, cast to
14417. -/
def PGFT_SlantMatrix : FT_Matrix :=
  { xx := 65536, xy := Int.tdiv (22 * 65536) 100, yx := 0, yy := 65536 }

/-- Lines 462-469 of `PGFT_LoadGlyph`: the embolden block.  The result is the
image with `bold_str` and `bold_advance`; `none` is the jump to `cleanup`. -/
def emboldenGlyph {O : Type} (ft : FreeType O) (embolden : Bool) (character : Nat)
    (image : O) : Option (O × Int × Int) :=
  if embolden = true ∧ character ≠ UNICODE_SPACE then
    match ft.FT_Outline_Embolden image BOLD_STRENGTH with
    | none => none
    | some image1 => some (image1, BOLD_STRENGTH, BOLD_ADVANCE)
  else some (image, 0, 0)

/-- Lines 489-505 of `PGFT_LoadGlyph`: the rotation block.  The result is the
image with the two advance vectors; `none` is the jump to `cleanup`. -/
def rotateGlyph {O : Type} (ft : FreeType O) (rotation_angle : Int) (image : O)
    (h_advance_rotated v_advance_rotated : FT_Vector) :
    Option (O × FT_Vector × FT_Vector) :=
  if rotation_angle ≠ 0 then
    let counter_rotation :=
      if rotation_angle ≠ 0 then PGFT_INT_TO_6 360 - rotation_angle else 0
    let unit := ft.FT_Vector_Unit rotation_angle
    let transform : FT_Matrix :=
      { xx := unit.x, xy := -unit.y, yx := unit.y, yy := unit.x }
    match ft.FT_Glyph_Transform image transform ⟨0, 0⟩ with
    | none => none
    | some image1 =>
      some (image1, ft.FT_Vector_Rotate h_advance_rotated rotation_angle,
        ft.FT_Vector_Rotate v_advance_rotated counter_rotation)
  else some (image, h_advance_rotated, v_advance_rotated)

/-- Lines 528-547 of `PGFT_LoadGlyph`: the rotated vertical bearing. -/
def vertBearingRotated {O : Type} (ft : FreeType O) (rotation_angle : Int)
    (ft_metrics : FT_Glyph_Metrics) (bold_advance : Int) (h_metrics : FontMetrics) :
    FT_Vector :=
  if rotation_angle = 0 then
    ⟨ft_metrics.vertBearingX - Int.tdiv bold_advance 2, ft_metrics.vertBearingY⟩
  else
    let v_origin : FT_Vector :=
      ⟨h_metrics.bearing_x - ft_metrics.vertBearingX + Int.tdiv bold_advance 2,
       h_metrics.bearing_y + ft_metrics.vertBearingY⟩
    let v_origin := ft.FT_Vector_Rotate v_origin rotation_angle
    ⟨h_metrics.bearing_rotated.x - v_origin.x, v_origin.y - h_metrics.bearing_rotated.y⟩

/-- Lines 516-551 of `PGFT_LoadGlyph`: fill the glyph from the bitmap. -/
def fillGlyph {O : Type} (ft : FreeType O) (rotation_angle : Int) (gindex : Nat)
    (ft_metrics : FT_Glyph_Metrics) (bold_str bold_advance : Int)
    (h_advance_rotated v_advance_rotated : FT_Vector) (bitmap : FT_BitmapGlyph) :
    FontGlyph :=
  let h_bearing_rotated : FT_Vector :=
    ⟨PGFT_INT_TO_6 bitmap.left, PGFT_INT_TO_6 bitmap.top⟩
  let h_metrics :=
    fill_metrics (ft_metrics.horiBearingX + bold_advance)
      (ft_metrics.horiBearingY + bold_advance) h_bearing_rotated h_advance_rotated
  let v_bearing_rotated :=
    vertBearingRotated ft rotation_angle ft_metrics bold_advance h_metrics
  { glyph_index := gindex,
    image := bitmap,
    width := PGFT_INT_TO_6 bitmap.width,
    height := PGFT_INT_TO_6 bitmap.rows,
    bold_strength := bold_str,
    h_metrics := h_metrics,
    v_metrics :=
      fill_metrics (ft_metrics.vertBearingX + bold_advance)
        (ft_metrics.vertBearingY + bold_advance) v_bearing_rotated v_advance_rotated }

/-- The function `PGFT_LoadGlyph`: resolve one codepoint.  `none` is the return value -1
(the jump to `cleanup`), otherwise the result is the filled glyph. -/
def PGFT_LoadGlyph {O : Type} (ft : FreeType O) (character : Nat)
    (render : FontRenderMode) : Option FontGlyph :=
  let gindex := ft.FTC_CMapCache_Lookup character
  if gindex = 0 then none
  else
    let load_flags := GetLoadFlags render
    match ft.FT_Load_Glyph gindex load_flags with
    | none => none
    | some ft_metrics =>
      match ft.FT_Get_Glyph gindex load_flags with
      | none => none
      | some image =>
        match emboldenGlyph ft render.bold character image with
        | none => none
        | some (image1, bold_str, bold_advance) =>
          let h_advance_rotated : FT_Vector := ⟨ft_metrics.horiAdvance + bold_advance, 0⟩
          let v_advance_rotated : FT_Vector := ⟨0, ft_metrics.vertAdvance + bold_advance⟩
          let image2 :=
            if render.oblique = true then ft.FT_Outline_Transform image1 PGFT_SlantMatrix
            else image1
          match rotateGlyph ft render.rotation_angle image2 h_advance_rotated
              v_advance_rotated with
          | none => none
          | some (image3, h_adv, v_adv) =>
            match ft.FT_Glyph_To_Bitmap image3 render.antialias with
            | none => none
            | some bitmap =>
              some (fillGlyph ft render.rotation_angle gindex ft_metrics bold_str
                bold_advance h_adv v_adv bitmap)

/-- Modelled from the spec: the glyph cache lookup `PGFT_Cache_FindGlyph` of
the cache module, which is not part of the sources.  The cache memoizes the
resolver per codepoint and render mode: a lookup yields the glyph
`PGFT_LoadGlyph` resolves, or nothing when it resolves none. -/
def PGFT_Cache_FindGlyph {O : Type} (ft : FreeType O) (character : Nat)
    (render : FontRenderMode) : Option FontGlyph :=
  PGFT_LoadGlyph ft character render

/-! ## A concrete font engine

A small, fully concrete instance of the library and of the host, used to
evaluate the definitions on explicit inputs. -/

/-- FreeType's `FT_MulFix` on exact integers: the product divided by 65536,
rounded to nearest, computed on absolute values with the sign restored. -/
def refMulFix (a b : Int) : Int :=
  let c : Int := (((a.natAbs * b.natAbs + 32768) / 65536 : Nat) : Int)
  if (0 ≤ a) = (0 ≤ b) then c else -c

/-- Bisection for the integer square root: the greatest `k` with
`lo ≤ k < hi` and `k * k ≤ n`, given `lo * lo ≤ n < hi * hi`, in at most
`fuel` halvings. -/
def sqrtSearch : Nat → Nat → Nat → Nat → Nat
  | 0, _, lo, _ => lo
  | fuel + 1, n, lo, hi =>
    if hi ≤ lo + 1 then lo
    else if (lo + hi) / 2 * ((lo + hi) / 2) ≤ n then sqrtSearch fuel n ((lo + hi) / 2) hi
    else sqrtSearch fuel n lo ((lo + hi) / 2)

/-- The integer square root (exact below 2^64, which covers the examples). -/
def isqrt (n : Nat) : Nat := sqrtSearch 64 n 0 (n + 1)

/-- The Euclidean length of a vector, rounded down. -/
def refLength (v : FT_Vector) : Int :=
  ((isqrt (v.x.natAbs * v.x.natAbs + v.y.natAbs * v.y.natAbs) : Nat) : Int)

/-- Rotation by a 16.16 angle, exact at the quarter turns; every other angle
is treated as no rotation (the examples use quarter turns only). -/
def refRotate (v : FT_Vector) (angle : Int) : FT_Vector :=
  let a := angle % (360 * 65536)
  if a = 90 * 65536 then ⟨-v.y, v.x⟩
  else if a = 180 * 65536 then ⟨-v.x, -v.y⟩
  else if a = 270 * 65536 then ⟨v.y, -v.x⟩
  else v

/-- The raw metrics of the three glyphs of the example font. -/
def demoMetrics (gindex : Nat) : Option FT_Glyph_Metrics :=
  if gindex = 3 then
    some { horiBearingX := 0, horiBearingY := 0, horiAdvance := 256,
           vertBearingX := -128, vertBearingY := 64, vertAdvance := 896 }
  else if gindex = 36 then
    some { horiBearingX := 0, horiBearingY := 704, horiAdvance := 640,
           vertBearingX := -320, vertBearingY := 64, vertAdvance := 896 }
  else if gindex = 37 then
    some { horiBearingX := 64, horiBearingY := 704, horiAdvance := 704,
           vertBearingX := -288, vertBearingY := 64, vertAdvance := 896 }
  else none

/-- The bitmaps of the three glyphs of the example font. -/
def demoBitmap (gindex : Nat) : Option FT_BitmapGlyph :=
  if gindex = 3 then some { left := 0, top := 0, width := 0, rows := 0 }
  else if gindex = 36 then some { left := 0, top := 11, width := 10, rows := 11 }
  else if gindex = 37 then some { left := 1, top := 11, width := 9, rows := 11 }
  else none

/-- An example library: a font with the space, `A` and `B` (glyph indices 3,
36 and 37), one kerning pair, and outlines identified by their glyph index. -/
def demoFreeType : FreeType Nat :=
  { FTC_CMapCache_Lookup := fun c =>
      if c = 32 then 3 else if c = 65 then 36 else if c = 66 then 37 else 0,
    FT_Load_Glyph := fun gindex _ => demoMetrics gindex,
    FT_Get_Glyph := fun gindex _ => some gindex,
    FT_Outline_Embolden := fun o _ => some o,
    FT_Outline_Transform := fun o _ => o,
    FT_Glyph_Transform := fun o _ _ => some o,
    FT_Glyph_To_Bitmap := fun o _ => demoBitmap o,
    FT_Vector_Unit := fun angle => refRotate ⟨65536, 0⟩ angle,
    FT_Vector_Rotate := refRotate,
    FT_Vector_Length := refLength,
    FT_MulFix := refMulFix,
    FT_Get_Kerning := fun _ l r => if l = 36 ∧ r = 37 then some ⟨-70, 0⟩ else some ⟨0, 0⟩ }

/-- The example sentinels: the extremes of a 32-bit 26.6 value. -/
def demoLimits : Limits :=
  { PGFT_MAX_6 := 2147483647, PGFT_MIN_6 := -2147483648 }

/-- The example sized face: underline 292 font units below the baseline and
150 thick, with 2048 units per em at 16 pixels per em. -/
def demoFace : FT_Face :=
  { underline_position := -292, underline_thickness := 150, y_scale := 32768 }

/-- The example host: the face is always available, allocations succeed and
the cache resolves through `PGFT_LoadGlyph`. -/
def demoHost : Host :=
  { getFaceSized := fun _ => some demoFace,
    malloc_glyphs := fun _ => true,
    malloc_posns := fun _ => true,
    findGlyph := fun c render => PGFT_Cache_FindGlyph demoFreeType c render }

/-- The plain render mode: 16 points, no rotation, no style, antialiased and
hinted. -/
def demoRender : FontRenderMode :=
  { pt_size := 1024, rotation_angle := 0, bold := false, oblique := false,
    underline := false, antialias := true, autohint := false, hinted := true }

/-- A horizontal font with kerning enabled. -/
def demoFont : PyFreeTypeFont := { vertical := false, kerning := true }

/-- A render mode like `demoRender` with the underline style. -/
def demoUnderline : FontRenderMode :=
  { pt_size := 1024, rotation_angle := 0, bold := false, oblique := false,
    underline := true, antialias := true, autohint := false, hinted := true }

/-- The layout of a text on the example font, from a fresh layout state (the
fresh state itself if the call fails). -/
def demoLayout (font : PyFreeTypeFont) (render : FontRenderMode) (text : List Nat) :
    FontText :=
  (PGFT_LoadFontText demoFreeType demoLimits demoHost font PGFT_FontTextInit render
    text).getD PGFT_FontTextInit

/-- A vertical font with kerning enabled. -/
def demoVerticalFont : PyFreeTypeFont := { vertical := true, kerning := true }

/-- The glyph of `A` in the plain render mode on the example font. -/
def demoGlyphA : FontGlyph :=
  { glyph_index := 36,
    image := { left := 0, top := 11, width := 10, rows := 11 },
    width := 640, height := 704, bold_strength := 0,
    h_metrics := { bearing_x := 0, bearing_y := 704,
                   bearing_rotated := ⟨0, 704⟩, advance_rotated := ⟨640, 0⟩ },
    v_metrics := { bearing_x := -320, bearing_y := 64,
                   bearing_rotated := ⟨-320, 64⟩, advance_rotated := ⟨0, 896⟩ } }

/-- The glyph of `B` in the plain render mode on the example font. -/
def demoGlyphB : FontGlyph :=
  { glyph_index := 37,
    image := { left := 1, top := 11, width := 9, rows := 11 },
    width := 576, height := 704, bold_strength := 0,
    h_metrics := { bearing_x := 64, bearing_y := 704,
                   bearing_rotated := ⟨64, 704⟩, advance_rotated := ⟨704, 0⟩ },
    v_metrics := { bearing_x := -288, bearing_y := 64,
                   bearing_rotated := ⟨-288, 64⟩, advance_rotated := ⟨0, 896⟩ } }

/-- The layout state left by the underlined layout of `AB` on the example
font: its underline fields are 36 and 75. -/
def demoUnderlinedState : FontText := demoLayout demoFont demoUnderline [65, 66]

/-- The metrics record the loop uses for a glyph (line 230). -/
def activeMetrics (vertical : Bool) (glyph : FontGlyph) : FontMetrics :=
  if vertical then glyph.v_metrics else glyph.h_metrics

/-- Every slot the loop has written so far holds a glyph whose box, at its
recorded position, lies within the extents accumulated so far. -/
def BoxesInside (s : LoopState) : Prop :=
  ∀ i g p, i < s.count → s.glyphs[i]? = some (some g) → s.posns[i]? = some (some p) →
    s.min_x ≤ p.x ∧ p.x + g.width ≤ s.max_x ∧ s.min_y ≤ p.y ∧ p.y + g.height ≤ s.max_y

/-- The loop state on the example font after the first two codepoints of the
text `A`, U+2603, `B`: the glyph of `A` is placed and the unresolved
codepoint has shifted the pen history. -/
def demoStateAfterA : LoopState :=
  (layoutLoop demoFreeType demoHost demoFace demoFont demoRender
    (initLoop demoLimits
      { PGFT_FontTextInit with
        buffer_size := 3, length := 3,
        glyphs := [none, none, none], posns := [none, none, none] })
    [65, 9731]).getD (initLoop demoLimits PGFT_FontTextInit)

/-- A layout state whose buffers have the length `buffer_size` says. -/
def FontText.WellFormed (t : FontText) : Prop :=
  t.glyphs.length = t.buffer_size ∧ t.posns.length = t.buffer_size

/-- The number of codepoints of a text the glyph cache resolves. -/
def resolvedCount (host : Host) (render : FontRenderMode) (text : List Nat) : Nat :=
  (text.filter (fun ch => (host.findGlyph ch render).isSome)).length

/-! ## The single glyph probe and further notions used by the properties -/

/-- The values `PGFT_GetMetrics` stores through its six result pointers.  The
two advances are the 26.6 advance divided by 64.0: the division of an integer
by a power of two, exact as a rational number. -/
structure GlyphProbe where
  minx : Int
  maxx : Int
  miny : Int
  maxy : Int
  advance_x : Rat
  advance_y : Rat
deriving DecidableEq

/-- The function `PGFT_GetMetrics`.  `none` is the return value -1 (lines 351
and 363); a result is the return value 0 with the stored values. -/
def PGFT_GetMetrics (host : Host) (character : Nat) (render : FontRenderMode) :
    Option GlyphProbe :=
  match host.getFaceSized render.pt_size with
  | none => none
  | some _ =>
    match host.findGlyph character render with
    | none => none
    | some glyph =>
      some { minx := glyph.image.left,
             maxx := glyph.image.left + glyph.image.width,
             maxy := glyph.image.top,
             miny := glyph.image.top - glyph.image.rows,
             advance_x := (glyph.h_metrics.advance_rotated.x : Rat) / 64,
             advance_y := (glyph.h_metrics.advance_rotated.y : Rat) / 64 }

/-- The angle of lines 491-492 of `PGFT_LoadGlyph` by which the vertical
advance is rotated. -/
def counterRotation (rotation_angle : Int) : Int :=
  if rotation_angle ≠ 0 then PGFT_INT_TO_6 360 - rotation_angle else 0

/-- Whether a set of load flags includes every bit of `flag`. -/
def hasFlag (flags flag : Nat) : Bool := flags &&& flag == flag

/-- The glyphs the cache resolves for a text, in input order. -/
def resolvedGlyphs (host : Host) (render : FontRenderMode) (text : List Nat) :
    List FontGlyph :=
  text.filterMap (fun ch => host.findGlyph ch render)

/-- The sum of the `x` components of the active advance vectors of a list of
glyphs. -/
def sumAdvanceX (vertical : Bool) (glyphs : List FontGlyph) : Int :=
  (glyphs.map (fun g => (activeMetrics vertical g).advance_rotated.x)).sum

/-- The sum of the `y` components of the active advance vectors of a list of
glyphs. -/
def sumAdvanceY (vertical : Bool) (glyphs : List FontGlyph) : Int :=
  (glyphs.map (fun g => (activeMetrics vertical g).advance_rotated.y)).sum

/-- One call of `PGFT_LoadFontText` on a font: its writing mode and kerning
switch, the render mode and the text. -/
structure LayoutCall where
  font : PyFreeTypeFont
  render : FontRenderMode
  text : List Nat

/-- The loop of lines 184-273 as far as it gets: the loop state at its end,
or the loop state of the iteration in which a kerning query fails (the return
of line 214), whose buffers hold the glyphs placed until then. -/
def layoutLoopReached {O : Type} (ft : FreeType O) (host : Host) (face : FT_Face)
    (font : PyFreeTypeFont) (render : FontRenderMode) :
    LoopState → List Nat → LoopState
  | s, [] => s
  | s, ch :: rest =>
    match loopStep ft host face font render s ch with
    | none => s
    | some s1 => layoutLoopReached ft host face font render s1 rest

/-- The layout state left by lines 152-172 when an allocation fails.  When the
glyph allocation fails (line 157) the glyph buffer is `NULL` and nothing else
has changed; when the position allocation fails (line 166) the glyph buffer
is the fresh storage and the position buffer is `NULL`.  `buffer_size` is not
written in either case. -/
def allocFailureState (host : Host) (ftext : FontText) (string_length : Nat) : FontText :=
  if host.malloc_glyphs string_length = true then
    { ftext with glyphs := List.replicate string_length none, posns := [] }
  else
    { ftext with glyphs := [] }

/-- The layout state `PGFT_LoadFontText` leaves in place, whatever it
returns.  The function works on the state of the font itself: without a sized
face nothing is written (line 141); a failed allocation leaves
`allocFailureState` (lines 160, 169); a failed kerning query (line 214)
leaves the grown buffers with the glyphs placed until then, `length` and the
reset underline fields of lines 174-175, and the other fields of the previous
layout; a successful call leaves the state it returns. -/
def PGFT_LoadFontText_state {O : Type} (ft : FreeType O) (lim : Limits) (host : Host)
    (font : PyFreeTypeFont) (ftext : FontText) (render : FontRenderMode)
    (text : List Nat) : FontText :=
  let string_length := text.length
  match host.getFaceSized render.pt_size with
  | none => ftext
  | some face =>
    match growBuffers host ftext string_length with
    | none => allocFailureState host ftext string_length
    | some ftext1 =>
      let ftext2 := resetText ftext1 string_length
      match layoutLoop ft host face font render (initLoop lim ftext2) text with
      | some s => finalise ftext2 s (finalExtents ft face font render s)
      | none =>
        { ftext2 with
          glyphs :=
            (layoutLoopReached ft host face font render (initLoop lim ftext2) text).glyphs,
          posns :=
            (layoutLoopReached ft host face font render (initLoop lim ftext2) text).posns }

/-- A sequence of `PGFT_LoadFontText` calls on the layout state of one font:
each call works on the state the previous call left in place, whether that
call returned a Run or `NULL`. -/
def layoutCalls {O : Type} (ft : FreeType O) (lim : Limits) (host : Host) :
    FontText → List LayoutCall → FontText
  | t, [] => t
  | t, call :: rest =>
    layoutCalls ft lim host
      (PGFT_LoadFontText_state ft lim host call.font t call.render call.text) rest

/-- Whether the sized face lookup and the allocations of one call on the
layout state `t` succeed (no allocation is made when the text fits). -/
def callResourcesOk (host : Host) (t : FontText) (call : LayoutCall) : Bool :=
  (host.getFaceSized call.render.pt_size).isSome &&
    (growBuffers host t call.text.length).isSome

/-- Whether the face lookup and the allocations succeed in every call of a
sequence, each call taken on the state the calls before it left. -/
def callsResourcesOk {O : Type} (ft : FreeType O) (lim : Limits) (host : Host) :
    FontText → List LayoutCall → Bool
  | _, [] => true
  | t, call :: rest =>
    callResourcesOk host t call &&
      callsResourcesOk ft lim host
        (PGFT_LoadFontText_state ft lim host call.font t call.render call.text) rest

/-- The largest text length of a sequence of calls (0 for no call). -/
def maxTextLength (calls : List LayoutCall) : Nat :=
  (calls.map (fun call => call.text.length)).foldl max 0

/-- An example library like `demoFreeType` whose character map also knows `C`
(glyph index 38), a glyph the font engine then fails to load. -/
def demoFailingFreeType : FreeType Nat :=
  { demoFreeType with
    FTC_CMapCache_Lookup := fun c =>
      if c = 67 then 38 else demoFreeType.FTC_CMapCache_Lookup c }

/-- The example host on the library `demoFailingFreeType`. -/
def demoFailingHost : Host :=
  { getFaceSized := fun _ => some demoFace,
    malloc_glyphs := fun _ => true,
    malloc_posns := fun _ => true,
    findGlyph := fun c render => PGFT_Cache_FindGlyph demoFailingFreeType c render }

/-- A horizontal font with kerning disabled. -/
def demoPlainFont : PyFreeTypeFont := { vertical := false, kerning := false }

/-- A render mode like `demoRender`, rotated by a quarter turn (90 degrees in
16.16). -/
def demoRotated : FontRenderMode :=
  { pt_size := 1024, rotation_angle := 5898240, bold := false, oblique := false,
    underline := false, antialias := true, autohint := false, hinted := true }

/-- A render mode like `demoRender` with the bold style. -/
def demoBold : FontRenderMode :=
  { pt_size := 1024, rotation_angle := 0, bold := true, oblique := false,
    underline := false, antialias := true, autohint := false, hinted := true }

/-- A render mode with the autohint flag and without the hinted flag. -/
def demoAutohint : FontRenderMode :=
  { pt_size := 1024, rotation_angle := 0, bold := false, oblique := false,
    underline := false, antialias := true, autohint := true, hinted := false }

/-- A font-engine failure while resolving a codepoint: the character map
gives a non-zero glyph index and `PGFT_LoadGlyph` still fills no glyph (the
load, the image copy, the embolden, the transform or the rasterization
failed). -/
def EngineFailure {O : Type} (ft : FreeType O) (character : Nat)
    (render : FontRenderMode) : Prop :=
  ft.FTC_CMapCache_Lookup character ≠ 0 ∧ PGFT_LoadGlyph ft character render = none

/-- The loop state on the example font after the first codepoint of the text
`AB`: the glyph of `A` is placed, the pen is at (640, 0) and the pen history
is still at the origin. -/
def demoStateFirst : LoopState :=
  (layoutLoop demoFreeType demoHost demoFace demoFont demoRender
    (initLoop demoLimits
      { PGFT_FontTextInit with
        buffer_size := 2, length := 2, glyphs := [none, none], posns := [none, none] })
    [65]).getD (initLoop demoLimits PGFT_FontTextInit)

/-- An example library like `demoFreeType` whose kerning query always fails. -/
def demoKerningFails : FreeType Nat :=
  { demoFreeType with FT_Get_Kerning := fun _ _ _ => none }

/-- Two calls on the example font with the failing kerning query: the text
`AB` with kerning enabled, which returns `NULL` at the kerning query for
`B`, and the text `A` with kerning enabled, which returns a Run. -/
def demoCalls : List LayoutCall :=
  [⟨demoFont, demoRender, [65, 66]⟩, ⟨demoFont, demoRender, [65]⟩]

/-- A further call on the example font: the text `A`, U+2603, `B` without
kerning. -/
def demoNextCall : LayoutCall := ⟨demoPlainFont, demoUnderline, [65, 9731, 66]⟩

/-- Two loop states that agree on everything but the pen history and the
slots from the write cursor on: the pen, the previous glyph index, the four
extents, `top`, the write cursor and the slots written so far. -/
def SamePlacement (s t : LoopState) : Prop :=
  s.pen = t.pen ∧ s.prev_glyph_index = t.prev_glyph_index ∧
  s.min_x = t.min_x ∧ s.max_x = t.max_x ∧ s.min_y = t.min_y ∧ s.max_y = t.max_y ∧
  s.top = t.top ∧ s.count = t.count ∧
  s.glyphs.take s.count = t.glyphs.take t.count ∧
  s.posns.take s.count = t.posns.take t.count

/-- The text with the codepoints the cache does not resolve removed. -/
def resolvedText (host : Host) (render : FontRenderMode) (text : List Nat) : List Nat :=
  text.filter (fun ch => (host.findGlyph ch render).isSome)

/-! ## Properties of the fixed-point helpers -/

theorem PGFT_FLOOR_le (x : Int) : PGFT_FLOOR x ≤ x := by
  unfold PGFT_FLOOR; omega

theorem le_PGFT_CEIL (x : Int) : x ≤ PGFT_CEIL x := by
  unfold PGFT_CEIL; omega

theorem PGFT_TRUNC_span (a b : Int) :
    64 * PGFT_TRUNC (PGFT_CEIL a - PGFT_FLOOR b) = PGFT_CEIL a - PGFT_FLOOR b := by
  unfold PGFT_TRUNC PGFT_CEIL PGFT_FLOOR; omega

theorem PGFT_TRUNC_span_nonneg (a b : Int) (h : b ≤ a) :
    0 ≤ PGFT_TRUNC (PGFT_CEIL a - PGFT_FLOOR b) := by
  unfold PGFT_TRUNC PGFT_CEIL PGFT_FLOOR; omega

theorem BOLD_STRENGTH_eq : BOLD_STRENGTH = 41 := by decide

theorem BOLD_ADVANCE_eq : BOLD_ADVANCE = 164 := by decide

/-! ## Properties of the finalisation -/

theorem foldPen_bounds (s : LoopState) :
    (foldPen s).min_x ≤ s.pen.x ∧ s.pen.x ≤ (foldPen s).max_x ∧
    (foldPen s).min_y ≤ s.pen.y ∧ s.pen.y ≤ (foldPen s).max_y := by
  unfold foldPen
  simp only
  refine ⟨?_, ?_, ?_, ?_⟩ <;> split_ifs <;> omega

theorem foldPen_extends (s : LoopState) :
    (foldPen s).min_x ≤ s.min_x ∧ s.max_x ≤ (foldPen s).max_x ∧
    (foldPen s).min_y ≤ s.min_y ∧ s.max_y ≤ (foldPen s).max_y := by
  unfold foldPen
  simp only
  refine ⟨?_, ?_, ?_, ?_⟩ <;> split_ifs <;> omega

theorem applyUnderline_frame {O : Type} (ft : FreeType O) (face : FT_Face)
    (font : PyFreeTypeFont) (render : FontRenderMode) (e : Extents) :
    (applyUnderline ft face font render e).min_x = e.min_x ∧
    (applyUnderline ft face font render e).max_x = e.max_x ∧
    (applyUnderline ft face font render e).min_y = e.min_y ∧
    e.max_y ≤ (applyUnderline ft face font render e).max_y := by
  unfold applyUnderline
  split_ifs <;> simp <;> omega

theorem finalExtents_bounds {O : Type} (ft : FreeType O) (face : FT_Face)
    (font : PyFreeTypeFont) (render : FontRenderMode) (s : LoopState) :
    (finalExtents ft face font render s).min_x ≤ s.pen.x ∧
    s.pen.x ≤ (finalExtents ft face font render s).max_x ∧
    (finalExtents ft face font render s).min_y ≤ s.pen.y ∧
    s.pen.y ≤ (finalExtents ft face font render s).max_y := by
  have hf := foldPen_bounds s
  have hu := applyUnderline_frame ft face font render (foldPen s)
  unfold finalExtents
  omega

/-- A successful `PGFT_LoadFontText` went through a sized face, the buffer
growth and the loop, and its result is the finalisation of the loop state. -/
theorem LoadFontText_success {O : Type} {ft : FreeType O} {lim : Limits} {host : Host}
    {font : PyFreeTypeFont} {ftext : FontText} {render : FontRenderMode}
    {text : List Nat} {r : FontText}
    (h : PGFT_LoadFontText ft lim host font ftext render text = some r) :
    ∃ face ftext1 s,
      host.getFaceSized render.pt_size = some face ∧
      growBuffers host ftext text.length = some ftext1 ∧
      layoutLoop ft host face font render
        (initLoop lim (resetText ftext1 text.length)) text = some s ∧
      r = finalise (resetText ftext1 text.length) s (finalExtents ft face font render s) := by
  unfold PGFT_LoadFontText at h
  simp only at h
  split at h
  · exact absurd h (by simp)
  · rename_i face hface
    split at h
    · exact absurd h (by simp)
    · rename_i ftext1 hgrow
      split at h
      · exact absurd h (by simp)
      · rename_i s hloop
        exact ⟨face, ftext1, s, hface, hgrow, hloop, (Option.some.inj h).symm⟩

/-- The converse of `LoadFontText_success`. -/
theorem LoadFontText_of_steps {O : Type} {ft : FreeType O} {lim : Limits} {host : Host}
    {font : PyFreeTypeFont} {ftext : FontText} {render : FontRenderMode}
    {text : List Nat} {face : FT_Face} {ftext1 : FontText} {s : LoopState}
    (hface : host.getFaceSized render.pt_size = some face)
    (hgrow : growBuffers host ftext text.length = some ftext1)
    (hloop : layoutLoop ft host face font render
        (initLoop lim (resetText ftext1 text.length)) text = some s) :
    PGFT_LoadFontText ft lim host font ftext render text =
      some (finalise (resetText ftext1 text.length) s
        (finalExtents ft face font render s)) := by
  unfold PGFT_LoadFontText
  simp only [hface, hgrow, hloop]

/-! ## Bounding box, underline and empty text -/

/-- C1: after a successful `PGFT_LoadFontText`, on any text, writing mode and
render mode, `width` and `height` are non-negative; they are computed from
extents into which the final pen (the reported advance) was folded, so that
`min_x ≤ pen.x ≤ max_x` and `min_y ≤ pen.y ≤ max_y`, with `offset` the
negated minima. -/
theorem LoadFontText_size_nonneg {O : Type} (ft : FreeType O) (lim : Limits) (host : Host)
    (font : PyFreeTypeFont) (ftext : FontText) (render : FontRenderMode)
    (text : List Nat) (r : FontText)
    (h : PGFT_LoadFontText ft lim host font ftext render text = some r) :
    0 ≤ r.width ∧ 0 ≤ r.height ∧
    ∃ e : Extents,
      e.min_x ≤ r.advance.x ∧ r.advance.x ≤ e.max_x ∧
      e.min_y ≤ r.advance.y ∧ r.advance.y ≤ e.max_y ∧
      r.width = PGFT_TRUNC (PGFT_CEIL e.max_x - PGFT_FLOOR e.min_x) ∧
      r.height = PGFT_TRUNC (PGFT_CEIL e.max_y - PGFT_FLOOR e.min_y) ∧
      r.offset = ⟨-e.min_x, -e.min_y⟩ := by
  obtain ⟨face, ftext1, s, _, _, _, hr⟩ := LoadFontText_success h
  have hb := finalExtents_bounds ft face font render s
  subst hr
  refine ⟨?_, ?_, finalExtents ft face font render s, hb.1, hb.2.1, hb.2.2.1, hb.2.2.2,
    rfl, rfl, rfl⟩
  · exact PGFT_TRUNC_span_nonneg _ _ (by omega)
  · exact PGFT_TRUNC_span_nonneg _ _ (by omega)

/-- C1, on the example font: the text `A`, an unresolved codepoint, `B`. -/
theorem LoadFontText_size_nonneg_witness :
    PGFT_LoadFontText demoFreeType demoLimits demoHost demoFont PGFT_FontTextInit
        demoRender [65, 9731, 66] = some (demoLayout demoFont demoRender [65, 9731, 66]) ∧
    0 ≤ (demoLayout demoFont demoRender [65, 9731, 66]).width ∧
    0 ≤ (demoLayout demoFont demoRender [65, 9731, 66]).height :=
  ⟨by decide,
   (LoadFontText_size_nonneg demoFreeType demoLimits demoHost demoFont PGFT_FontTextInit
      demoRender [65, 9731, 66] _ (by decide)).1,
   (LoadFontText_size_nonneg demoFreeType demoLimits demoHost demoFont PGFT_FontTextInit
      demoRender [65, 9731, 66] _ (by decide)).2.1⟩

/-- The loop on the empty text returns its initial state. -/
theorem layoutLoop_nil {O : Type} (ft : FreeType O) (host : Host) (face : FT_Face)
    (font : PyFreeTypeFont) (render : FontRenderMode) (s : LoopState) :
    layoutLoop ft host face font render s [] = some s := rfl

/-- No buffer grows for the empty text. -/
theorem growBuffers_zero (host : Host) (ftext : FontText) :
    growBuffers host ftext 0 = some ftext := by
  unfold growBuffers
  simp

/-- The empty text always lays out when the sized face is available, and the
result is the finalisation of the initial loop state. -/
theorem LoadFontText_nil {O : Type} (ft : FreeType O) (lim : Limits) (host : Host)
    (font : PyFreeTypeFont) (ftext : FontText) (render : FontRenderMode) (face : FT_Face)
    (hface : host.getFaceSized render.pt_size = some face) :
    PGFT_LoadFontText ft lim host font ftext render [] =
      some (finalise (resetText ftext 0) (initLoop lim (resetText ftext 0))
        (finalExtents ft face font render (initLoop lim (resetText ftext 0)))) :=
  LoadFontText_of_steps hface (growBuffers_zero host ftext) (layoutLoop_nil _ _ _ _ _ _)

/-- On the empty text the reported `top` is the truncated ceiling of the
sentinel `PGFT_MIN_6`: no loop iteration replaces the initial value of `top`
and, unlike the four extents, `top` is not folded with the pen. -/
theorem LoadFontText_nil_top {O : Type} (ft : FreeType O) (lim : Limits) (host : Host)
    (font : PyFreeTypeFont) (ftext : FontText) (render : FontRenderMode) (r : FontText)
    (h : PGFT_LoadFontText ft lim host font ftext render [] = some r) :
    r.top = PGFT_TRUNC (PGFT_CEIL lim.PGFT_MIN_6) := by
  obtain ⟨face, ftext1, s, _, _, hloop, hr⟩ := LoadFontText_success h
  rw [layoutLoop_nil] at hloop
  subst hr
  rw [← Option.some.inj hloop]
  rfl

/-- C8: after a successful `PGFT_LoadFontText`, whatever the previous layout
state held, `underline_pos` and `underline_size` are zero when the underline
flag is not set, or the font is vertical, or the rotation angle is not zero. -/
theorem LoadFontText_underline_zero {O : Type} (ft : FreeType O) (lim : Limits)
    (host : Host) (font : PyFreeTypeFont) (ftext : FontText) (render : FontRenderMode)
    (text : List Nat) (r : FontText)
    (h : PGFT_LoadFontText ft lim host font ftext render text = some r)
    (hoff : render.underline = false ∨ font.vertical = true ∨ render.rotation_angle ≠ 0) :
    r.underline_pos = 0 ∧ r.underline_size = 0 := by
  obtain ⟨face, ftext1, s, _, _, _, hr⟩ := LoadFontText_success h
  subst hr
  have hcond : ¬ (render.underline = true ∧ font.vertical = false ∧
      render.rotation_angle = 0) := by
    rintro ⟨h1, h2, h3⟩
    rcases hoff with h | h | h
    · rw [h1] at h; exact Bool.noConfusion h
    · rw [h2] at h; exact Bool.noConfusion h
    · exact h h3
  simp [finalise, finalExtents, applyUnderline, hcond, foldPen]

/-- C8, on the example font: a plain layout of `A` on the state left by an
underlined layout. -/
theorem LoadFontText_underline_zero_witness :
    demoUnderlinedState.underline_pos = 36 ∧ demoUnderlinedState.underline_size = 75 ∧
    PGFT_LoadFontText demoFreeType demoLimits demoHost demoFont demoUnderlinedState
        demoRender [65] =
      some ((PGFT_LoadFontText demoFreeType demoLimits demoHost demoFont
        demoUnderlinedState demoRender [65]).getD PGFT_FontTextInit) ∧
    ((PGFT_LoadFontText demoFreeType demoLimits demoHost demoFont
        demoUnderlinedState demoRender [65]).getD PGFT_FontTextInit).underline_pos = 0 ∧
    ((PGFT_LoadFontText demoFreeType demoLimits demoHost demoFont
        demoUnderlinedState demoRender [65]).getD PGFT_FontTextInit).underline_size = 0 :=
  ⟨by decide, by decide, by decide,
   LoadFontText_underline_zero demoFreeType demoLimits demoHost demoFont
     demoUnderlinedState demoRender [65] _ (by decide) (Or.inl rfl)⟩

/-- C9: for a horizontal, unrotated layout with the underline flag,
`underline_size` is `FT_MulFix(underline_thickness, y_scale)` plus 41 when
bold and plus 0 otherwise, `underline_pos` is the negated
`FT_MulFix(underline_position, y_scale)` divided by 4 toward zero, and the
height is computed from a `max_y` that is at least
`underline_pos + underline_size / 2` (with `min_y` the negated `offset.y`). -/
theorem LoadFontText_underline_metrics {O : Type} (ft : FreeType O) (lim : Limits)
    (host : Host) (font : PyFreeTypeFont) (ftext : FontText) (render : FontRenderMode)
    (text : List Nat) (r : FontText) (face : FT_Face)
    (hface : host.getFaceSized render.pt_size = some face)
    (h : PGFT_LoadFontText ft lim host font ftext render text = some r)
    (hunder : render.underline = true) (hhoriz : font.vertical = false)
    (hangle : render.rotation_angle = 0) :
    r.underline_size =
      ft.FT_MulFix face.underline_thickness face.y_scale +
        (if render.bold = true then 41 else 0) ∧
    r.underline_pos = Int.tdiv (-(ft.FT_MulFix face.underline_position face.y_scale)) 4 ∧
    ∃ max_y : Int,
      r.underline_pos + Int.tdiv r.underline_size 2 ≤ max_y ∧
      r.height = PGFT_TRUNC (PGFT_CEIL max_y - PGFT_FLOOR (-r.offset.y)) := by
  obtain ⟨face1, ftext1, s, hface1, _, _, hr⟩ := LoadFontText_success h
  rw [hface] at hface1
  obtain rfl : face = face1 := Option.some.inj hface1
  subst hr
  have hcond : render.underline = true ∧ font.vertical = false ∧
      render.rotation_angle = 0 := ⟨hunder, hhoriz, hangle⟩
  refine ⟨?_, ?_, (finalExtents ft face font render s).max_y, ?_, ?_⟩
  · simp [finalise, finalExtents, applyUnderline, hcond, BOLD_STRENGTH_eq]
  · simp [finalise, finalExtents, applyUnderline, hcond]
  · simp only [finalise, finalExtents, applyUnderline, hcond, and_self, if_true]
    split_ifs <;> omega
  · simp [finalise]

/-- C9, on the example font: the underlined layout of `AB`, whose underline
is 36 below the baseline and 75 thick. -/
theorem LoadFontText_underline_metrics_witness :
    PGFT_LoadFontText demoFreeType demoLimits demoHost demoFont PGFT_FontTextInit
        demoUnderline [65, 66] = some (demoLayout demoFont demoUnderline [65, 66]) ∧
    (demoLayout demoFont demoUnderline [65, 66]).underline_size = 75 + 0 ∧
    (demoLayout demoFont demoUnderline [65, 66]).underline_pos = Int.tdiv (-(-146)) 4 :=
  ⟨by decide,
   (LoadFontText_underline_metrics demoFreeType demoLimits demoHost demoFont
      PGFT_FontTextInit demoUnderline [65, 66] _ demoFace rfl (by decide) rfl rfl rfl).1,
   (LoadFontText_underline_metrics demoFreeType demoLimits demoHost demoFont
      PGFT_FontTextInit demoUnderline [65, 66] _ demoFace rfl (by decide) rfl rfl rfl).2.1⟩

/-- After folding the pen, the extents of the initial loop state are all zero
when the sentinels lie on their sides of zero. -/
theorem foldPen_initLoop (lim : Limits) (ftext : FontText)
    (hlim : lim.PGFT_MIN_6 ≤ 0 ∧ 0 ≤ lim.PGFT_MAX_6) :
    foldPen (initLoop lim ftext) =
      { min_x := 0, max_x := 0, min_y := 0, max_y := 0,
        underline_pos := 0, underline_size := 0 } := by
  obtain ⟨h1, h2⟩ := hlim
  have e1 : (if (0 : Int) > lim.PGFT_MIN_6 then 0 else lim.PGFT_MIN_6) = 0 := by
    split_ifs <;> omega
  have e2 : (if (0 : Int) < lim.PGFT_MAX_6 then 0 else lim.PGFT_MAX_6) = 0 := by
    split_ifs <;> omega
  simp only [foldPen, initLoop, e1, e2]

/-- The reported length of a successful layout is the length of the text,
whatever resolves. -/
theorem LoadFontText_length {O : Type} {ft : FreeType O} {lim : Limits} {host : Host}
    {font : PyFreeTypeFont} {ftext : FontText} {render : FontRenderMode}
    {text : List Nat} {r : FontText}
    (h : PGFT_LoadFontText ft lim host font ftext render text = some r) :
    r.length = text.length := by
  obtain ⟨_, _, _, _, _, _, hr⟩ := LoadFontText_success h
  rw [hr]
  rfl

/-- C2: the reported length counts unresolved codepoints.  On the example
font the text `A`, U+2603 has one codepoint that resolves, one glyph is
written, and the reported length is 2. -/
theorem LoadFontText_length_counts_unresolved :
    demoHost.findGlyph 9731 demoRender = none ∧
    resolvedCount demoHost demoRender [65, 9731] = 1 ∧
    (PGFT_LoadFontText demoFreeType demoLimits demoHost demoFont PGFT_FontTextInit
        demoRender [65, 9731]).map FontText.length = some 2 ∧
    (PGFT_LoadFontText demoFreeType demoLimits demoHost demoFont PGFT_FontTextInit
        demoRender [65, 9731]).map (fun r => r.glyphs.map Option.isSome) =
      some [true, false] := by
  decide

/-- C3 as stated fails: on the example font, with the underline style, no
rotation, no bold and no oblique, the empty text has height 2. -/
theorem LoadFontText_empty_underlined_height :
    demoUnderline.rotation_angle = 0 ∧ demoUnderline.bold = false ∧
    demoUnderline.oblique = false ∧
    (PGFT_LoadFontText demoFreeType demoLimits demoHost demoFont PGFT_FontTextInit
        demoUnderline []).map FontText.height = some 2 := by
  decide

/-- C3, amended: with rotation angle 0, neither bold nor oblique, a sized
face and sentinels with `PGFT_MIN_6 ≤ 0 ≤ PGFT_MAX_6`, the empty text lays
out with width 0, advance (0,0), offset (0,0) and no glyph; its height is the
truncated ceiling of the underline's lower edge when that is positive and 0
otherwise, so it is 0 when the underline flag is clear or the font is
vertical. -/
theorem empty_text_layout {O : Type} (ft : FreeType O) (lim : Limits) (host : Host)
    (font : PyFreeTypeFont) (ftext : FontText) (render : FontRenderMode) (face : FT_Face)
    (hface : host.getFaceSized render.pt_size = some face)
    (hlim : lim.PGFT_MIN_6 ≤ 0 ∧ 0 ≤ lim.PGFT_MAX_6)
    (_hangle : render.rotation_angle = 0) (_hbold : render.bold = false)
    (_hoblique : render.oblique = false) :
    ∃ r, PGFT_LoadFontText ft lim host font ftext render [] = some r ∧
      r.width = 0 ∧ r.advance = ⟨0, 0⟩ ∧ r.offset = ⟨0, 0⟩ ∧ r.run = [] ∧
      r.height =
        PGFT_TRUNC (PGFT_CEIL (max 0 (r.underline_pos + Int.tdiv r.underline_size 2))) ∧
      (render.underline = false ∨ font.vertical = true → r.height = 0) := by
  refine ⟨_, LoadFontText_nil ft lim host font ftext render face hface, ?_⟩
  have hf := foldPen_initLoop lim (resetText ftext 0) hlim
  by_cases hcond : render.underline = true ∧ font.vertical = false ∧
      render.rotation_angle = 0
  · have hm : ∀ u : Int, (if u > 0 then u else 0) = max 0 u := by
      intro u
      split_ifs with hu
      · exact (max_eq_right (le_of_lt hu)).symm
      · exact (max_eq_left (not_lt.mp hu)).symm
    refine ⟨?_, ?_, ?_, ?_, ?_, ?_⟩
    · simp [finalise, finalExtents, applyUnderline, hcond, hf, PGFT_TRUNC, PGFT_CEIL,
        PGFT_FLOOR]
    · simp [finalise, initLoop]
    · simp [finalise, finalExtents, applyUnderline, hcond, hf]
    · simp [FontText.run, finalise, resetText]
    · simp only [finalise, finalExtents, applyUnderline, hcond, hf, and_self, if_true, hm]
      simp [PGFT_FLOOR]
    · rintro (h | h)
      · rw [hcond.1] at h; exact Bool.noConfusion h
      · rw [hcond.2.1] at h; exact Bool.noConfusion h
  · refine ⟨?_, ?_, ?_, ?_, ?_, ?_⟩
    · simp [finalise, finalExtents, applyUnderline, hcond, hf, PGFT_TRUNC, PGFT_CEIL,
        PGFT_FLOOR]
    · simp [finalise, initLoop]
    · simp [finalise, finalExtents, applyUnderline, hcond, hf]
    · simp [FontText.run, finalise, resetText]
    · simp [finalise, finalExtents, applyUnderline, hcond, hf, PGFT_TRUNC, PGFT_CEIL,
        PGFT_FLOOR, Int.tdiv]
    · intro _
      simp [finalise, finalExtents, applyUnderline, hcond, hf, PGFT_TRUNC, PGFT_CEIL,
        PGFT_FLOOR]

/-- C3 amended, on the example font with the underline style: the empty text
has width 0, advance and offset (0,0), and the height 2 of the underline. -/
theorem empty_text_layout_witness :
    demoHost.getFaceSized demoUnderline.pt_size = some demoFace ∧
    (demoLimits.PGFT_MIN_6 ≤ 0 ∧ 0 ≤ demoLimits.PGFT_MAX_6) ∧
    ∃ r, PGFT_LoadFontText demoFreeType demoLimits demoHost demoFont PGFT_FontTextInit
        demoUnderline [] = some r ∧
      r.width = 0 ∧ r.advance = ⟨0, 0⟩ ∧ r.offset = ⟨0, 0⟩ ∧ r.run = [] ∧
      r.height =
        PGFT_TRUNC (PGFT_CEIL (max 0 (r.underline_pos + Int.tdiv r.underline_size 2))) ∧
      (demoUnderline.underline = false ∨ demoFont.vertical = true → r.height = 0) :=
  ⟨rfl, by decide,
   empty_text_layout demoFreeType demoLimits demoHost demoFont PGFT_FontTextInit
     demoUnderline demoFace rfl (by decide) rfl rfl rfl⟩

/-- C4: the sentinel reaches `top`.  On the example font, without underline,
the empty text leaves every other scalar field zero and `top` at -33554432,
the truncated sentinel `PGFT_MIN_6`. -/
theorem LoadFontText_empty_top_sentinel :
    demoRender.underline = false ∧
    PGFT_LoadFontText demoFreeType demoLimits demoHost demoFont PGFT_FontTextInit
        demoRender [] =
      some { buffer_size := 0, length := 0, glyphs := [], posns := [],
             width := 0, height := 0, left := 0, top := -33554432,
             offset := ⟨0, 0⟩, advance := ⟨0, 0⟩,
             underline_pos := 0, underline_size := 0 } ∧
    PGFT_TRUNC (PGFT_CEIL demoLimits.PGFT_MIN_6) = -33554432 := by
  decide

/-! ## Glyph boxes lie inside the surface -/

theorem placeGlyph_extents (vertical : Bool) (s : LoopState) (pen : FT_Vector)
    (glyph : FontGlyph) :
    (placeGlyph vertical s pen glyph).min_x ≤ s.min_x ∧
    s.max_x ≤ (placeGlyph vertical s pen glyph).max_x ∧
    (placeGlyph vertical s pen glyph).min_y ≤ s.min_y ∧
    s.max_y ≤ (placeGlyph vertical s pen glyph).max_y ∧
    (placeGlyph vertical s pen glyph).min_x ≤
      (glyphPos vertical pen (activeMetrics vertical glyph)).x ∧
    (glyphPos vertical pen (activeMetrics vertical glyph)).x + glyph.width ≤
      (placeGlyph vertical s pen glyph).max_x ∧
    (placeGlyph vertical s pen glyph).min_y ≤
      (glyphPos vertical pen (activeMetrics vertical glyph)).y ∧
    (glyphPos vertical pen (activeMetrics vertical glyph)).y + glyph.height ≤
      (placeGlyph vertical s pen glyph).max_y := by
  cases vertical
  · simp only [placeGlyph, glyphPos, activeMetrics, Bool.false_eq_true, if_false]
    refine ⟨?_, ?_, ?_, ?_, ?_, ?_, ?_, ?_⟩ <;> split_ifs <;> omega
  · simp only [placeGlyph, glyphPos, activeMetrics, if_true]
    refine ⟨?_, ?_, ?_, ?_, ?_, ?_, ?_, ?_⟩ <;> split_ifs <;> omega

theorem placeGlyph_slots (vertical : Bool) (s : LoopState) (pen : FT_Vector)
    (glyph : FontGlyph) :
    (placeGlyph vertical s pen glyph).count = s.count + 1 ∧
    (placeGlyph vertical s pen glyph).glyphs = s.glyphs.set s.count (some glyph) ∧
    (placeGlyph vertical s pen glyph).posns =
      s.posns.set s.count (some (glyphPos vertical pen (activeMetrics vertical glyph))) := by
  cases vertical <;> simp [placeGlyph, activeMetrics]

theorem placeGlyph_BoxesInside (vertical : Bool) (s : LoopState) (pen : FT_Vector)
    (glyph : FontGlyph) (hs : BoxesInside s) :
    BoxesInside (placeGlyph vertical s pen glyph) := by
  intro i g p hi hg hp
  obtain ⟨hc, hgl, hpo⟩ := placeGlyph_slots vertical s pen glyph
  have he := placeGlyph_extents vertical s pen glyph
  rw [hc] at hi
  rw [hgl] at hg
  rw [hpo] at hp
  by_cases hic : i = s.count
  · subst hic
    rw [List.getElem?_set] at hg hp
    simp only [if_true] at hg hp
    split_ifs at hg with h1
    · split_ifs at hp with h2
      · have hg1 : glyph = g := Option.some.inj (Option.some.inj hg)
        have hp1 : glyphPos vertical pen (activeMetrics vertical glyph) = p :=
          Option.some.inj (Option.some.inj hp)
        subst hg1
        subst hp1
        exact ⟨he.2.2.2.2.1, he.2.2.2.2.2.1, he.2.2.2.2.2.2.1, he.2.2.2.2.2.2.2⟩
  · have hne : s.count ≠ i := fun h => hic h.symm
    rw [List.getElem?_set_ne hne] at hg hp
    have := hs i g p (by omega) hg hp
    omega

/-- The shape of a successful loop iteration: an unresolved codepoint only
shifts the pen history; a resolved one places its glyph at the pen the
kerning block yields. -/
theorem loopStep_cases {O : Type} {ft : FreeType O} {host : Host} {face : FT_Face}
    {font : PyFreeTypeFont} {render : FontRenderMode} {s s1 : LoopState} {ch : Nat}
    (h : loopStep ft host face font render s ch = some s1) :
    (host.findGlyph ch render = none ∧ s1 = { s with pen2 := s.pen1, pen1 := s.pen }) ∨
    (∃ glyph pen, host.findGlyph ch render = some glyph ∧
      applyKerning ft face font.kerning render.rotation_angle s.prev_glyph_index
        glyph.glyph_index s.pen1 s.pen = some pen ∧
      s1 = placeGlyph font.vertical { s with pen2 := s.pen1, pen1 := s.pen } pen glyph) := by
  unfold loopStep at h
  simp only at h
  split at h
  · rename_i hfind
    exact Or.inl ⟨hfind, (Option.some.inj h).symm⟩
  · rename_i glyph hfind
    split at h
    · exact absurd h (by simp)
    · rename_i pen hkern
      exact Or.inr ⟨glyph, pen, hfind, hkern, (Option.some.inj h).symm⟩

theorem resolvedCount_cons (host : Host) (render : FontRenderMode) (ch : Nat)
    (rest : List Nat) :
    resolvedCount host render (ch :: rest) =
      (if (host.findGlyph ch render).isSome = true then 1 else 0) +
        resolvedCount host render rest := by
  unfold resolvedCount
  rw [List.filter_cons]
  split_ifs <;> simp
  omega

theorem loopStep_BoxesInside {O : Type} {ft : FreeType O} {host : Host} {face : FT_Face}
    {font : PyFreeTypeFont} {render : FontRenderMode} {s s1 : LoopState} {ch : Nat}
    (h : loopStep ft host face font render s ch = some s1) (hs : BoxesInside s) :
    BoxesInside s1 ∧
    s1.count = s.count + (if (host.findGlyph ch render).isSome = true then 1 else 0) := by
  have hs0 : BoxesInside { s with pen2 := s.pen1, pen1 := s.pen } :=
    fun i g p hi hg hp => hs i g p hi hg hp
  rcases loopStep_cases h with ⟨hfind, rfl⟩ | ⟨glyph, pen, hfind, _, rfl⟩
  · exact ⟨hs0, by simp [hfind]⟩
  · refine ⟨placeGlyph_BoxesInside _ _ _ _ hs0, ?_⟩
    rw [(placeGlyph_slots _ _ _ _).1]
    simp [hfind]

theorem layoutLoop_BoxesInside {O : Type} {ft : FreeType O} {host : Host} {face : FT_Face}
    {font : PyFreeTypeFont} {render : FontRenderMode} (text : List Nat) :
    ∀ {s s1 : LoopState}, layoutLoop ft host face font render s text = some s1 →
      BoxesInside s →
      BoxesInside s1 ∧ s1.count = s.count + resolvedCount host render text := by
  induction text with
  | nil =>
    intro s s1 h hs
    rw [layoutLoop_nil] at h
    rw [← Option.some.inj h]
    exact ⟨hs, by simp [resolvedCount]⟩
  | cons ch rest ih =>
    intro s s1 h hs
    unfold layoutLoop at h
    split at h
    · exact absurd h (by simp)
    · rename_i s2 hstep
      obtain ⟨hb2, hc2⟩ := loopStep_BoxesInside hstep hs
      obtain ⟨hb1, hc1⟩ := ih h hb2
      refine ⟨hb1, ?_⟩
      rw [hc1, hc2, resolvedCount_cons]
      omega

/-- C5: after a successful `PGFT_LoadFontText`, in either writing mode, every
glyph `g` recorded with position `p` (the slots below the number of resolved
codepoints) satisfies `0 ≤ p.x + offset.x`,
`p.x + g.width + offset.x ≤ 64 * width`, `0 ≤ p.y + offset.y` and
`p.y + g.height + offset.y ≤ 64 * height`. -/
theorem LoadFontText_boxes_inside {O : Type} (ft : FreeType O) (lim : Limits) (host : Host)
    (font : PyFreeTypeFont) (ftext : FontText) (render : FontRenderMode)
    (text : List Nat) (r : FontText)
    (h : PGFT_LoadFontText ft lim host font ftext render text = some r)
    (i : Nat) (g : FontGlyph) (p : FT_Vector)
    (hi : i < resolvedCount host render text)
    (hg : r.glyphs[i]? = some (some g)) (hp : r.posns[i]? = some (some p)) :
    0 ≤ p.x + r.offset.x ∧ p.x + g.width + r.offset.x ≤ 64 * r.width ∧
    0 ≤ p.y + r.offset.y ∧ p.y + g.height + r.offset.y ≤ 64 * r.height := by
  obtain ⟨face, ftext1, s, _, _, hloop, hr⟩ := LoadFontText_success h
  have hinit : BoxesInside (initLoop lim (resetText ftext1 text.length)) := by
    intro j _ _ hj
    exact absurd hj (Nat.not_lt_zero j)
  obtain ⟨hbox, hcount⟩ := layoutLoop_BoxesInside text hloop hinit
  subst hr
  have hcount0 : s.count = resolvedCount host render text := by
    rw [hcount]
    simp [initLoop]
  have hb := hbox i g p (by omega) hg hp
  have hf := foldPen_extends s
  have hu := applyUnderline_frame ft face font render (foldPen s)
  have hw := PGFT_TRUNC_span (finalExtents ft face font render s).max_x
    (finalExtents ft face font render s).min_x
  have hh := PGFT_TRUNC_span (finalExtents ft face font render s).max_y
    (finalExtents ft face font render s).min_y
  have c1 := le_PGFT_CEIL (finalExtents ft face font render s).max_x
  have c2 := le_PGFT_CEIL (finalExtents ft face font render s).max_y
  have f1 := PGFT_FLOOR_le (finalExtents ft face font render s).min_x
  have f2 := PGFT_FLOOR_le (finalExtents ft face font render s).min_y
  simp only [finalise]
  unfold finalExtents at hw hh c1 c2 f1 f2 ⊢
  refine ⟨?_, ?_, ?_, ?_⟩ <;> omega

/-- C5, on the example font: the second glyph of `AB`, vertical writing. -/
theorem LoadFontText_boxes_inside_witness :
    PGFT_LoadFontText demoFreeType demoLimits demoHost demoVerticalFont PGFT_FontTextInit
        demoRender [65, 66] = some (demoLayout demoVerticalFont demoRender [65, 66]) ∧
    1 < resolvedCount demoHost demoRender [65, 66] ∧
    (demoLayout demoVerticalFont demoRender [65, 66]).glyphs[1]? = some (some demoGlyphB) ∧
    (demoLayout demoVerticalFont demoRender [65, 66]).posns[1]? =
      some (some ⟨-352, 960⟩) ∧
    0 ≤ (-352 : Int) + (demoLayout demoVerticalFont demoRender [65, 66]).offset.x ∧
    (960 : Int) + demoGlyphB.height +
        (demoLayout demoVerticalFont demoRender [65, 66]).offset.y ≤
      64 * (demoLayout demoVerticalFont demoRender [65, 66]).height :=
  ⟨by decide, by decide, by decide, by decide,
   (LoadFontText_boxes_inside demoFreeType demoLimits demoHost demoVerticalFont
      PGFT_FontTextInit demoRender [65, 66] _ (by decide) 1 demoGlyphB ⟨-352, 960⟩
      (by decide) (by decide) (by decide)).1,
   (LoadFontText_boxes_inside demoFreeType demoLimits demoHost demoVerticalFont
      PGFT_FontTextInit demoRender [65, 66] _ (by decide) 1 demoGlyphB ⟨-352, 960⟩
      (by decide) (by decide) (by decide)).2.2.2⟩

/-! ## Kerning and the overshoot guard -/

/-- C7: in a loop step where kerning is applied (kerning enabled, a previous
glyph index, a resolved glyph and a successful kerning query), with `pen2`
the pen two steps back and `kerned` the pen plus the rounded kerning: if the
length of `kerned` is strictly less than the length of `pen2` the glyph is
placed at exactly `pen2`, otherwise at `kerned` unchanged. -/
theorem loopStep_overshoot_guard {O : Type} (ft : FreeType O) (host : Host)
    (face : FT_Face) (font : PyFreeTypeFont) (render : FontRenderMode) (s : LoopState)
    (ch : Nat) (glyph : FontGlyph) (kerning : FT_Vector)
    (hkerning : font.kerning = true) (hprev : s.prev_glyph_index ≠ 0)
    (hfind : host.findGlyph ch render = some glyph)
    (hget : ft.FT_Get_Kerning face s.prev_glyph_index glyph.glyph_index = some kerning) :
    ∃ s1, loopStep ft host face font render s ch = some s1 ∧
      s1.pen2 = s.pen1 ∧
      (ft.FT_Vector_Length (kernedPen ft render.rotation_angle s.pen kerning) <
          ft.FT_Vector_Length s.pen1 →
        s1.posns = s.posns.set s.count
          (some (glyphPos font.vertical s.pen1 (activeMetrics font.vertical glyph))) ∧
        s1.pen = advancePen font.vertical s.pen1 (activeMetrics font.vertical glyph)) ∧
      (¬ ft.FT_Vector_Length (kernedPen ft render.rotation_angle s.pen kerning) <
          ft.FT_Vector_Length s.pen1 →
        s1.posns = s.posns.set s.count
          (some (glyphPos font.vertical (kernedPen ft render.rotation_angle s.pen kerning)
            (activeMetrics font.vertical glyph))) ∧
        s1.pen = advancePen font.vertical
          (kernedPen ft render.rotation_angle s.pen kerning)
          (activeMetrics font.vertical glyph)) := by
  have hstep : loopStep ft host face font render s ch =
      some (placeGlyph font.vertical { s with pen2 := s.pen1, pen1 := s.pen }
        (overshootGuard ft s.pen1 (kernedPen ft render.rotation_angle s.pen kerning))
        glyph) := by
    simp [loopStep, hfind, applyKerning, hkerning, hprev, hget]
  refine ⟨_, hstep, ?_, ?_, ?_⟩
  · simp [placeGlyph]
  · intro hlt
    have hg : overshootGuard ft s.pen1 (kernedPen ft render.rotation_angle s.pen kerning) =
        s.pen1 := by
      simp [overshootGuard, hlt]
    rw [hg]
    cases font.vertical <;> simp [placeGlyph, activeMetrics]
  · intro hge
    have hg : overshootGuard ft s.pen1 (kernedPen ft render.rotation_angle s.pen kerning) =
        kernedPen ft render.rotation_angle s.pen kerning := by
      simp only [overshootGuard, gt_iff_lt, hge, if_false]
    rw [hg]
    cases font.vertical <;> simp [placeGlyph, activeMetrics]

/-- C7, on the example font: placing `B` after `A` and an unresolved
codepoint, `pen2` is (640, 0), the kerned pen (576, 0) is shorter, and `B` is
placed at `pen2`. -/
theorem loopStep_overshoot_guard_witness :
    demoStateAfterA.pen1 = ⟨640, 0⟩ ∧
    kernedPen demoFreeType demoRender.rotation_angle demoStateAfterA.pen ⟨-70, 0⟩ =
      ⟨576, 0⟩ ∧
    demoFreeType.FT_Vector_Length
        (kernedPen demoFreeType demoRender.rotation_angle demoStateAfterA.pen ⟨-70, 0⟩) <
      demoFreeType.FT_Vector_Length demoStateAfterA.pen1 ∧
    ∃ s1, loopStep demoFreeType demoHost demoFace demoFont demoRender demoStateAfterA 66 =
        some s1 ∧
      s1.pen2 = demoStateAfterA.pen1 ∧
      (demoFreeType.FT_Vector_Length
          (kernedPen demoFreeType demoRender.rotation_angle demoStateAfterA.pen ⟨-70, 0⟩) <
          demoFreeType.FT_Vector_Length demoStateAfterA.pen1 →
        s1.posns = [some ⟨0, -704⟩, some ⟨704, -704⟩, none] ∧ s1.pen = ⟨1344, 0⟩) :=
  ⟨by decide, by decide, by decide,
   (loopStep_overshoot_guard demoFreeType demoHost demoFace demoFont demoRender
      demoStateAfterA 66 demoGlyphB ⟨-70, 0⟩ rfl (by decide) (by decide) (by decide)).imp
    (fun _ h => ⟨h.1, h.2.1, h.2.2.1⟩)⟩

/-- Growing the buffers of a well-formed layout state succeeds when both
allocations do; the result is well formed, has room for the text, and its
capacity is the larger of the old capacity and the text length. -/
theorem growBuffers_spec (host : Host) (ftext : FontText) (n : Nat)
    (hwf : ftext.WellFormed) (hg : host.malloc_glyphs n = true)
    (hp : host.malloc_posns n = true) :
    ∃ ftext1, growBuffers host ftext n = some ftext1 ∧ ftext1.WellFormed ∧
      ftext1.buffer_size = max ftext.buffer_size n := by
  unfold growBuffers
  by_cases hn : n > ftext.buffer_size
  · refine ⟨{ ftext with
        glyphs := List.replicate n none, posns := List.replicate n none,
        buffer_size := n }, by simp only [hn, hg, hp, if_true], ?_, ?_⟩
    · simp [FontText.WellFormed]
    · simp only
      omega
  · refine ⟨ftext, by simp only [hn, if_false], hwf, ?_⟩
    omega

/-- Writing the first two slots of two buffers with room for them. -/
theorem zip_set_two {α β : Type} (gl : List α) (po : List β) (hg : 2 ≤ gl.length)
    (hp : 2 ≤ po.length) (a b : α) (p q : β) :
    (((gl.set 0 a).set 1 b).zip ((po.set 0 p).set 1 q)).take 2 = [(a, p), (b, q)] := by
  rcases gl with _ | ⟨x, _ | ⟨y, t⟩⟩
  · simp at hg
  · simp at hg
  · rcases po with _ | ⟨u, _ | ⟨v, w⟩⟩
    · simp at hp
    · simp at hp
    · simp

/-- C6: two codepoints that both resolve, laid out horizontally at rotation 0
with kerning enabled (the first glyph has a non-zero glyph index, as every
glyph `PGFT_LoadGlyph` fills has, the kerning query succeeds with `kerning`,
and the origin has length 0, the least length): the layout succeeds, reports
exactly the two glyphs with their positions, the overshoot guard leaves the
kerned pen unchanged, and `advance.x` is the first advance plus the rounded
kerning plus the second advance. -/
theorem LoadFontText_two_glyphs {O : Type} (ft : FreeType O) (lim : Limits) (host : Host)
    (font : PyFreeTypeFont) (ftext : FontText) (render : FontRenderMode) (face : FT_Face)
    (c1 c2 : Nat) (g1 g2 : FontGlyph) (kerning : FT_Vector)
    (hwf : ftext.WellFormed)
    (hface : host.getFaceSized render.pt_size = some face)
    (hmg : host.malloc_glyphs 2 = true) (hmp : host.malloc_posns 2 = true)
    (h1 : host.findGlyph c1 render = some g1) (h2 : host.findGlyph c2 render = some g2)
    (hidx : g1.glyph_index ≠ 0)
    (hkerning : font.kerning = true) (hhoriz : font.vertical = false)
    (hangle : render.rotation_angle = 0)
    (hget : ft.FT_Get_Kerning face g1.glyph_index g2.glyph_index = some kerning)
    (hzero : ft.FT_Vector_Length ⟨0, 0⟩ = 0) (hlen : ∀ v, 0 ≤ ft.FT_Vector_Length v) :
    ∃ r, PGFT_LoadFontText ft lim host font ftext render [c1, c2] = some r ∧
      r.run =
        [(some g1, some ⟨g1.h_metrics.bearing_rotated.x, 0 - g1.h_metrics.bearing_rotated.y⟩),
         (some g2, some
            ⟨g1.h_metrics.advance_rotated.x + PGFT_ROUND kerning.x +
                g2.h_metrics.bearing_rotated.x,
             0 - g1.h_metrics.advance_rotated.y + PGFT_ROUND kerning.y -
                g2.h_metrics.bearing_rotated.y⟩)] ∧
      overshootGuard ft ⟨0, 0⟩
          (kernedPen ft render.rotation_angle
            ⟨g1.h_metrics.advance_rotated.x, 0 - g1.h_metrics.advance_rotated.y⟩ kerning) =
        kernedPen ft render.rotation_angle
          ⟨g1.h_metrics.advance_rotated.x, 0 - g1.h_metrics.advance_rotated.y⟩ kerning ∧
      r.advance.x =
        g1.h_metrics.advance_rotated.x + PGFT_ROUND kerning.x +
          g2.h_metrics.advance_rotated.x := by
  obtain ⟨ftext1, hgrow, hwf1, hsize⟩ := growBuffers_spec host ftext 2 hwf hmg hmp
  have hguard : ∀ v, overshootGuard ft ⟨0, 0⟩ v = v := by
    intro v
    have := hlen v
    simp only [overshootGuard, hzero, gt_iff_lt]
    rw [if_neg (by omega)]
  have hloop : layoutLoop ft host face font render
      (initLoop lim (resetText ftext1 2)) [c1, c2] =
      some (placeGlyph false
        { (placeGlyph false (initLoop lim (resetText ftext1 2)) ⟨0, 0⟩ g1) with
          pen2 := ⟨0, 0⟩,
          pen1 := ⟨0 + g1.h_metrics.advance_rotated.x, 0 - g1.h_metrics.advance_rotated.y⟩ }
        (kernedPen ft 0
          ⟨0 + g1.h_metrics.advance_rotated.x, 0 - g1.h_metrics.advance_rotated.y⟩ kerning)
        g2) := by
    simp [layoutLoop, loopStep, h1, h2, applyKerning, hkerning, hhoriz, hangle, hidx, hget,
      initLoop, placeGlyph, advancePen, hguard]
  have hrun := @LoadFontText_of_steps O ft lim host font ftext render [c1, c2] face ftext1 _
    hface hgrow hloop
  refine ⟨_, hrun, ?_, ?_, ?_⟩
  · have hgl : 2 ≤ ftext1.glyphs.length := by rw [hwf1.1, hsize]; omega
    have hpl : 2 ≤ ftext1.posns.length := by rw [hwf1.2, hsize]; omega
    simp only [FontText.run, finalise, resetText, placeGlyph, initLoop, kernedPen, glyphPos,
      Bool.false_eq_true, if_false, zero_add, ne_eq, not_true_eq_false, List.length_cons,
      List.length_nil]
    exact zip_set_two ftext1.glyphs ftext1.posns hgl hpl _ _ _ _
  · exact hguard _
  · simp [finalise, placeGlyph, advancePen, kernedPen]

/-- C6, on the example font: the text `AB`, kerned by -70 (rounded to -64). -/
theorem LoadFontText_two_glyphs_witness :
    ∃ r, PGFT_LoadFontText demoFreeType demoLimits demoHost demoFont PGFT_FontTextInit
        demoRender [65, 66] = some r ∧
      r.run = [(some demoGlyphA, some ⟨0, -704⟩), (some demoGlyphB, some ⟨640, -704⟩)] ∧
      r.advance.x = 640 + PGFT_ROUND (-70) + 704 :=
  (LoadFontText_two_glyphs demoFreeType demoLimits demoHost demoFont PGFT_FontTextInit
      demoRender demoFace 65 66 demoGlyphA demoGlyphB ⟨-70, 0⟩ ⟨rfl, rfl⟩ rfl rfl rfl
      (by decide) (by decide) (by decide) rfl rfl rfl (by decide) (by decide)
      (fun v => Int.ofNat_nonneg _)).imp
    (fun _ h => ⟨h.1, h.2.1, h.2.2.2⟩)

/-! ## The glyph metrics resolver -/

/-- A successful `PGFT_LoadGlyph` went through every stage: a non-zero glyph
index, the load, the image copy, the embolden block, the rotation block and
the rasterization; the glyph is filled from their results. -/
theorem LoadGlyph_success {O : Type} {ft : FreeType O} {character : Nat}
    {render : FontRenderMode} {g : FontGlyph}
    (h : PGFT_LoadGlyph ft character render = some g) :
    ∃ ft_metrics image image1 bold_str bold_advance image3 h_adv v_adv bitmap,
      ft.FTC_CMapCache_Lookup character ≠ 0 ∧
      ft.FT_Load_Glyph (ft.FTC_CMapCache_Lookup character) (GetLoadFlags render) =
        some ft_metrics ∧
      ft.FT_Get_Glyph (ft.FTC_CMapCache_Lookup character) (GetLoadFlags render) =
        some image ∧
      emboldenGlyph ft render.bold character image = some (image1, bold_str, bold_advance) ∧
      rotateGlyph ft render.rotation_angle
          (if render.oblique = true then ft.FT_Outline_Transform image1 PGFT_SlantMatrix
           else image1)
          ⟨ft_metrics.horiAdvance + bold_advance, 0⟩
          ⟨0, ft_metrics.vertAdvance + bold_advance⟩ = some (image3, h_adv, v_adv) ∧
      ft.FT_Glyph_To_Bitmap image3 render.antialias = some bitmap ∧
      g = fillGlyph ft render.rotation_angle (ft.FTC_CMapCache_Lookup character) ft_metrics
        bold_str bold_advance h_adv v_adv bitmap := by
  unfold PGFT_LoadGlyph at h
  simp only at h
  split at h
  · exact absurd h (by simp)
  · rename_i hidx
    split at h
    · exact absurd h (by simp)
    · rename_i ft_metrics hload
      split at h
      · exact absurd h (by simp)
      · rename_i image hget
        split at h
        · exact absurd h (by simp)
        · rename_i image1 bold_str bold_advance hbold
          split at h
          · exact absurd h (by simp)
          · rename_i image3 h_adv v_adv hrot
            split at h
            · exact absurd h (by simp)
            · rename_i bitmap hbit
              exact ⟨ft_metrics, image, image1, bold_str, bold_advance, image3, h_adv,
                v_adv, bitmap, hidx, hload, hget, hbold, hrot, hbit,
                (Option.some.inj h).symm⟩

/-- Every glyph `PGFT_LoadGlyph` fills has a non-zero glyph index. -/
theorem LoadGlyph_glyph_index_ne_zero {O : Type} {ft : FreeType O} {character : Nat}
    {render : FontRenderMode} {g : FontGlyph}
    (h : PGFT_LoadGlyph ft character render = some g) : g.glyph_index ≠ 0 := by
  obtain ⟨_, _, _, _, _, _, _, _, _, hidx, _, _, _, _, _, hg⟩ := LoadGlyph_success h
  rw [hg]
  exact hidx

/-- The horizontal advance of a glyph resolved without rotation: the raw
horizontal advance plus the padding of the embolden block. -/
theorem LoadGlyph_unrotated_advance {O : Type} {ft : FreeType O} {character : Nat}
    {render : FontRenderMode} {g : FontGlyph}
    (h : PGFT_LoadGlyph ft character render = some g)
    (hangle : render.rotation_angle = 0) :
    ∃ ft_metrics,
      ft.FT_Load_Glyph (ft.FTC_CMapCache_Lookup character) (GetLoadFlags render) =
        some ft_metrics ∧
      g.h_metrics.advance_rotated.x =
        ft_metrics.horiAdvance +
          (if render.bold = true ∧ character ≠ UNICODE_SPACE then BOLD_ADVANCE else 0) := by
  obtain ⟨ft_metrics, image, image1, bold_str, bold_advance, image3, h_adv, v_adv, bitmap,
    _, hload, _, hbold, hrot, _, hg⟩ := LoadGlyph_success h
  refine ⟨ft_metrics, hload, ?_⟩
  have hadv : h_adv = ⟨ft_metrics.horiAdvance + bold_advance, 0⟩ := by
    simp only [rotateGlyph, hangle, ne_eq, not_true_eq_false, if_false, Option.some.injEq,
      Prod.mk.injEq] at hrot
    exact hrot.2.1.symm
  have hb : bold_advance =
      (if render.bold = true ∧ character ≠ UNICODE_SPACE then BOLD_ADVANCE else 0) := by
    unfold emboldenGlyph at hbold
    split_ifs at hbold with hc
    · split at hbold
      · exact absurd hbold (by simp)
      · simp only [Option.some.injEq, Prod.mk.injEq] at hbold
        rw [if_pos hc]
        exact hbold.2.2.symm
    · simp only [Option.some.injEq, Prod.mk.injEq] at hbold
      rw [if_neg hc]
      exact hbold.2.2.symm
  rw [hg, hadv, ← hb]
  simp [fillGlyph, fill_metrics]

/-- The load flags do not depend on the bold style. -/
theorem GetLoadFlags_bold (render : FontRenderMode) (b : Bool) :
    GetLoadFlags { render with bold := b } = GetLoadFlags render := rfl

/-- C10: at rotation 0, for any codepoint and render mode, when
`PGFT_LoadGlyph` resolves the codepoint both with and without the bold flag
(the library giving the same raw metrics), the bold horizontal
`advance_rotated.x` is the plain one plus 164 (`BOLD_ADVANCE`, four times
`BOLD_STRENGTH` = 41) for every codepoint but the space and plus 0 for the
space, so it is never less. -/
theorem LoadGlyph_bold_advance {O : Type} (ft : FreeType O) (character : Nat)
    (render : FontRenderMode) (g gb : FontGlyph)
    (hangle : render.rotation_angle = 0)
    (hplain : PGFT_LoadGlyph ft character { render with bold := false } = some g)
    (hbold : PGFT_LoadGlyph ft character { render with bold := true } = some gb) :
    gb.h_metrics.advance_rotated.x =
      g.h_metrics.advance_rotated.x + (if character = UNICODE_SPACE then 0 else 164) ∧
    g.h_metrics.advance_rotated.x ≤ gb.h_metrics.advance_rotated.x ∧
    BOLD_ADVANCE = 164 ∧ BOLD_ADVANCE = 4 * BOLD_STRENGTH := by
  obtain ⟨m1, hl1, ha1⟩ := LoadGlyph_unrotated_advance hplain hangle
  obtain ⟨m2, hl2, ha2⟩ := LoadGlyph_unrotated_advance hbold hangle
  rw [GetLoadFlags_bold] at hl1 hl2
  rw [hl1] at hl2
  obtain rfl : m1 = m2 := Option.some.inj hl2
  simp only [Bool.false_eq_true, false_and, if_false, add_zero] at ha1
  simp only [true_and] at ha2
  rw [ha1, ha2, BOLD_ADVANCE_eq]
  refine ⟨?_, ?_, rfl, by decide⟩
  · split_ifs <;> simp_all
  · split_ifs <;> omega

/-- C10, on the example font: the glyph of `A`, plain and bold. -/
theorem LoadGlyph_bold_advance_witness :
    PGFT_LoadGlyph demoFreeType 65 { demoRender with bold := false } = some demoGlyphA ∧
    (PGFT_LoadGlyph demoFreeType 65 { demoRender with bold := true }).map
      (fun gb => gb.h_metrics.advance_rotated.x) = some 804 ∧
    ((PGFT_LoadGlyph demoFreeType 65 { demoRender with bold := true }).getD
      demoGlyphA).h_metrics.advance_rotated.x =
      demoGlyphA.h_metrics.advance_rotated.x + (if 65 = UNICODE_SPACE then 0 else 164) :=
  ⟨by decide, by decide,
   (LoadGlyph_bold_advance demoFreeType 65 demoRender demoGlyphA _ rfl (by decide)
      (show PGFT_LoadGlyph demoFreeType 65 { demoRender with bold := true } =
        some ((PGFT_LoadGlyph demoFreeType 65 { demoRender with bold := true }).getD
          demoGlyphA) by decide)).1⟩

/-! ## Load flags -/

/-- C19 as stated fails: with the autohint flag set and the hinted flag clear
the load flags include `FT_LOAD_NO_HINTING` (next to
`FT_LOAD_FORCE_AUTOHINT`). -/
theorem GetLoadFlags_autohint_no_hinting :
    demoAutohint.autohint = true ∧ demoAutohint.hinted = false ∧
    GetLoadFlags demoAutohint = 546 ∧
    hasFlag (GetLoadFlags demoAutohint) FT_LOAD_NO_HINTING = true ∧
    hasFlag (GetLoadFlags demoAutohint) FT_LOAD_FORCE_AUTOHINT = true := by
  decide

/-- C19, amended: for every render mode the load flags include
`FT_LOAD_IGNORE_GLOBAL_ADVANCE_WIDTH`, include `FT_LOAD_FORCE_AUTOHINT`
exactly when the autohint flag is set, and include `FT_LOAD_NO_HINTING`
exactly when the hinted flag is not set, whatever the autohint flag. -/
theorem GetLoadFlags_spec (render : FontRenderMode) :
    hasFlag (GetLoadFlags render) FT_LOAD_IGNORE_GLOBAL_ADVANCE_WIDTH = true ∧
    (hasFlag (GetLoadFlags render) FT_LOAD_FORCE_AUTOHINT = true ↔
      render.autohint = true) ∧
    (hasFlag (GetLoadFlags render) FT_LOAD_NO_HINTING = true ↔ render.hinted = false) := by
  rcases render with ⟨pt, angle, b, o, u, aa, autohint, hinted⟩
  cases autohint <;> cases hinted <;>
    simp [GetLoadFlags, hasFlag, FT_LOAD_DEFAULT, FT_LOAD_IGNORE_GLOBAL_ADVANCE_WIDTH,
      FT_LOAD_FORCE_AUTOHINT, FT_LOAD_NO_HINTING, FT_LOAD_TARGET_NORMAL] <;>
    decide

/-! ## Single glyph probe -/

/-- C12 as stated fails: on the example font U+2603 has glyph index 0, the
sized face is available, and `PGFT_GetMetrics` returns -1. -/
theorem GetMetrics_unresolved_fails :
    demoFreeType.FTC_CMapCache_Lookup 9731 = 0 ∧
    demoHost.getFaceSized demoRender.pt_size = some demoFace ∧
    demoHost.findGlyph 9731 demoRender = none ∧
    PGFT_GetMetrics demoHost 9731 demoRender = none := by
  decide

/-- C12, amended: for every codepoint for which the cache lookup yields no
glyph, `PGFT_GetMetrics` returns -1, also when the sized face is available:
it returns 0 only when the face is available and the lookup yields a glyph. -/
theorem GetMetrics_unresolved (host : Host) (character : Nat) (render : FontRenderMode)
    (hnone : host.findGlyph character render = none) :
    PGFT_GetMetrics host character render = none ∧
    ∀ c, (PGFT_GetMetrics host c render).isSome = true ↔
      (host.getFaceSized render.pt_size).isSome = true ∧
        (host.findGlyph c render).isSome = true := by
  constructor
  · unfold PGFT_GetMetrics
    rw [hnone]
    cases host.getFaceSized render.pt_size <;> rfl
  · intro c
    unfold PGFT_GetMetrics
    cases host.getFaceSized render.pt_size <;> cases host.findGlyph c render <;> simp

/-- C12 amended, on the example font: U+2603. -/
theorem GetMetrics_unresolved_witness :
    demoHost.findGlyph 9731 demoRender = none ∧
    PGFT_GetMetrics demoHost 9731 demoRender = none :=
  ⟨by decide, (GetMetrics_unresolved demoHost 9731 demoRender (by decide)).1⟩

/-! ## Rotation and the zero angle in the resolver -/

/-- The rotation block at a non-zero angle: the horizontal advance is rotated
by the angle and the vertical advance by `counterRotation`, which is
`PGFT_INT_TO_6 360` (that is 23040) minus the angle. -/
theorem rotateGlyph_angles {O : Type} (ft : FreeType O) (rotation_angle : Int) (image : O)
    (h_advance v_advance : FT_Vector) (hangle : rotation_angle ≠ 0) :
    rotateGlyph ft rotation_angle image h_advance v_advance =
      (ft.FT_Glyph_Transform image
        { xx := (ft.FT_Vector_Unit rotation_angle).x,
          xy := -(ft.FT_Vector_Unit rotation_angle).y,
          yx := (ft.FT_Vector_Unit rotation_angle).y,
          yy := (ft.FT_Vector_Unit rotation_angle).x } ⟨0, 0⟩).map
        (fun image1 => (image1, ft.FT_Vector_Rotate h_advance rotation_angle,
          ft.FT_Vector_Rotate v_advance (counterRotation rotation_angle))) ∧
    counterRotation rotation_angle = 23040 - rotation_angle := by
  constructor
  · simp only [rotateGlyph, counterRotation, hangle, ne_eq, not_false_eq_true, if_true]
    cases ft.FT_Glyph_Transform image _ ⟨0, 0⟩ <;> rfl
  · simp [counterRotation, hangle, PGFT_INT_TO_6]

/-- C17: the counter rotation uses the 26.6 conversion.  At a quarter turn
(90 degrees, 5898240 in 16.16) the vertical advance is rotated by
23040 - 5898240 = -5875200, not by 360 * 65536 - 5898240 = 17694720; the
horizontal advance is rotated by the angle itself. -/
theorem rotateGlyph_counter_rotation_quarter_turn :
    demoRotated.rotation_angle = 90 * 65536 ∧
    counterRotation demoRotated.rotation_angle = -5875200 ∧
    (360 * 65536 - demoRotated.rotation_angle : Int) = 17694720 ∧
    rotateGlyph demoFreeType demoRotated.rotation_angle 36 ⟨640, 0⟩ ⟨0, 896⟩ =
      some (36, demoFreeType.FT_Vector_Rotate ⟨640, 0⟩ 5898240,
        demoFreeType.FT_Vector_Rotate ⟨0, 896⟩ (-5875200)) := by
  decide

/-- The glyph resolved at rotation angle 0 is filled from the raw metrics and
the bitmap with unrotated advance vectors; the padding is `BOLD_ADVANCE` for
a bold codepoint other than the space and 0 otherwise. -/
theorem LoadGlyph_unrotated {O : Type} {ft : FreeType O} {character : Nat}
    {render : FontRenderMode} {g : FontGlyph}
    (h : PGFT_LoadGlyph ft character render = some g)
    (hangle : render.rotation_angle = 0) :
    ∃ ft_metrics bold_str bitmap,
      ft.FT_Load_Glyph (ft.FTC_CMapCache_Lookup character) (GetLoadFlags render) =
        some ft_metrics ∧
      g = fillGlyph ft 0 (ft.FTC_CMapCache_Lookup character) ft_metrics bold_str
        (if render.bold = true ∧ character ≠ UNICODE_SPACE then BOLD_ADVANCE else 0)
        ⟨ft_metrics.horiAdvance +
          (if render.bold = true ∧ character ≠ UNICODE_SPACE then BOLD_ADVANCE else 0), 0⟩
        ⟨0, ft_metrics.vertAdvance +
          (if render.bold = true ∧ character ≠ UNICODE_SPACE then BOLD_ADVANCE else 0)⟩
        bitmap := by
  obtain ⟨ft_metrics, image, image1, bold_str, bold_advance, image3, h_adv, v_adv, bitmap,
    _, hload, _, hbold, hrot, _, hg⟩ := LoadGlyph_success h
  refine ⟨ft_metrics, bold_str, bitmap, hload, ?_⟩
  simp only [rotateGlyph, hangle, ne_eq, not_true_eq_false, if_false, Option.some.injEq,
    Prod.mk.injEq] at hrot
  have hb : bold_advance =
      (if render.bold = true ∧ character ≠ UNICODE_SPACE then BOLD_ADVANCE else 0) := by
    unfold emboldenGlyph at hbold
    split_ifs at hbold with hc
    · split at hbold
      · exact absurd hbold (by simp)
      · simp only [Option.some.injEq, Prod.mk.injEq] at hbold
        rw [if_pos hc]
        exact hbold.2.2.symm
    · simp only [Option.some.injEq, Prod.mk.injEq] at hbold
      rw [if_neg hc]
      exact hbold.2.2.symm
  rw [hg, hangle, ← hrot.2.1, ← hrot.2.2, ← hb]

/-- C18 as stated fails: on the example font the bold glyph of `A`, at
rotation 0, has the vertical `bearing_rotated.x` -402 and `bearing_x` -156. -/
theorem LoadGlyph_bold_vertical_bearing :
    demoBold.rotation_angle = 0 ∧
    (PGFT_LoadGlyph demoFreeType 65 demoBold).map
      (fun g => (g.v_metrics.bearing_rotated.x, g.v_metrics.bearing_x,
        g.v_metrics.bearing_rotated.y, g.v_metrics.bearing_y)) =
      some (-402, -156, 64, 228) := by
  decide

/-- C18, amended: for every glyph resolved by `PGFT_LoadGlyph` at rotation
angle 0, with `padding` = 164 for a bold codepoint other than the space and 0
otherwise: the advance vectors are (horiAdvance + padding, 0) and
(0, vertAdvance + padding); the vertical record has `bearing_x` =
vertBearingX + padding, `bearing_y` = vertBearingY + padding and
`bearing_rotated` = (vertBearingX - padding / 2, vertBearingY); so the rotated
bearing equals the unrotated one when the padding is 0. -/
theorem LoadGlyph_zero_angle_metrics {O : Type} (ft : FreeType O) (character : Nat)
    (render : FontRenderMode) (g : FontGlyph)
    (h : PGFT_LoadGlyph ft character render = some g)
    (hangle : render.rotation_angle = 0) :
    ∃ m padding,
      ft.FT_Load_Glyph (ft.FTC_CMapCache_Lookup character) (GetLoadFlags render) = some m ∧
      padding = (if render.bold = true ∧ character ≠ UNICODE_SPACE then 164 else 0) ∧
      g.h_metrics.advance_rotated = ⟨m.horiAdvance + padding, 0⟩ ∧
      g.v_metrics.advance_rotated = ⟨0, m.vertAdvance + padding⟩ ∧
      g.v_metrics.bearing_x = m.vertBearingX + padding ∧
      g.v_metrics.bearing_y = m.vertBearingY + padding ∧
      g.v_metrics.bearing_rotated = ⟨m.vertBearingX - padding / 2, m.vertBearingY⟩ ∧
      (padding = 0 →
        g.v_metrics.bearing_rotated.x = g.v_metrics.bearing_x ∧
        g.v_metrics.bearing_rotated.y = g.v_metrics.bearing_y) := by
  obtain ⟨m, bold_str, bitmap, hload, hg⟩ := LoadGlyph_unrotated h hangle
  by_cases hc : render.bold = true ∧ character ≠ UNICODE_SPACE
  · rw [if_pos hc, BOLD_ADVANCE_eq] at hg
    refine ⟨m, 164, hload, (if_pos hc).symm, ?_⟩
    rw [hg]
    refine ⟨rfl, rfl, rfl, rfl, ?_, ?_⟩
    · have h2 : Int.tdiv 164 2 = 164 / 2 := by decide
      simp only [fillGlyph, fill_metrics, vertBearingRotated, if_true, h2]
    · intro h0
      exact absurd h0 (by decide)
  · rw [if_neg hc] at hg
    refine ⟨m, 0, hload, (if_neg hc).symm, ?_⟩
    rw [hg]
    refine ⟨rfl, rfl, rfl, rfl, ?_, ?_⟩
    · simp [fillGlyph, fill_metrics, vertBearingRotated]
    · intro _
      simp [fillGlyph, fill_metrics, vertBearingRotated]

/-- C18 amended, on the example font: the bold glyph of `A`. -/
theorem LoadGlyph_zero_angle_metrics_witness :
    PGFT_LoadGlyph demoFreeType 65 demoBold =
      some ((PGFT_LoadGlyph demoFreeType 65 demoBold).getD demoGlyphA) ∧
    ∃ m padding,
      demoFreeType.FT_Load_Glyph (demoFreeType.FTC_CMapCache_Lookup 65)
        (GetLoadFlags demoBold) = some m ∧
      padding = (if demoBold.bold = true ∧ 65 ≠ UNICODE_SPACE then 164 else 0) ∧
      ((PGFT_LoadGlyph demoFreeType 65 demoBold).getD demoGlyphA).v_metrics.bearing_rotated =
        ⟨m.vertBearingX - padding / 2, m.vertBearingY⟩ :=
  ⟨by decide,
   (LoadGlyph_zero_angle_metrics demoFreeType 65 demoBold _ (by decide) rfl).imp
    (fun _ h => h.imp (fun _ k => ⟨k.1, k.2.1, k.2.2.2.2.2.2.1⟩))⟩

/-! ## The direction of the overshoot guard -/

/-- C15 as stated fails: placing `B` after `A` on the example font, `pen2` is
the origin, the kerned pen (576, 0) is longer than `pen2`, and the pen is not
rolled back: `B` is recorded at 576 + 64 = 640. -/
theorem loopStep_longer_pen_kept :
    demoStateFirst.pen1 = ⟨0, 0⟩ ∧
    kernedPen demoFreeType demoRender.rotation_angle demoStateFirst.pen ⟨-70, 0⟩ =
      ⟨576, 0⟩ ∧
    demoFreeType.FT_Vector_Length demoStateFirst.pen1 <
      demoFreeType.FT_Vector_Length
        (kernedPen demoFreeType demoRender.rotation_angle demoStateFirst.pen ⟨-70, 0⟩) ∧
    (loopStep demoFreeType demoHost demoFace demoFont demoRender demoStateFirst 66).map
      (fun s => s.posns) = some [some ⟨0, -704⟩, some ⟨640, -704⟩] := by
  decide

/-- C15, amended: in a loop step where kerning is applied, the glyph is placed
at the pen the guard yields from `pen2` and the kerned pen; that pen is
`pen2` when the length of the kerned pen is strictly less than the length of
`pen2`, and the kerned pen itself when its length exceeds or equals the
length of `pen2`. -/
theorem loopStep_guard_direction {O : Type} (ft : FreeType O) (host : Host)
    (face : FT_Face) (font : PyFreeTypeFont) (render : FontRenderMode) (s : LoopState)
    (ch : Nat) (glyph : FontGlyph) (kerning : FT_Vector)
    (hkerning : font.kerning = true) (hprev : s.prev_glyph_index ≠ 0)
    (hfind : host.findGlyph ch render = some glyph)
    (hget : ft.FT_Get_Kerning face s.prev_glyph_index glyph.glyph_index = some kerning) :
    loopStep ft host face font render s ch =
      some (placeGlyph font.vertical { s with pen2 := s.pen1, pen1 := s.pen }
        (overshootGuard ft s.pen1 (kernedPen ft render.rotation_angle s.pen kerning))
        glyph) ∧
    (ft.FT_Vector_Length (kernedPen ft render.rotation_angle s.pen kerning) <
        ft.FT_Vector_Length s.pen1 →
      overshootGuard ft s.pen1 (kernedPen ft render.rotation_angle s.pen kerning) =
        s.pen1) ∧
    (ft.FT_Vector_Length s.pen1 ≤
        ft.FT_Vector_Length (kernedPen ft render.rotation_angle s.pen kerning) →
      overshootGuard ft s.pen1 (kernedPen ft render.rotation_angle s.pen kerning) =
        kernedPen ft render.rotation_angle s.pen kerning) := by
  refine ⟨?_, ?_, ?_⟩
  · simp [loopStep, hfind, applyKerning, hkerning, hprev, hget]
  · intro hlt
    simp [overshootGuard, hlt]
  · intro hle
    simp only [overshootGuard, gt_iff_lt]
    rw [if_neg (not_lt.mpr hle)]

/-- C15 amended, on the example font: `B` after `A`, where the kerned pen is
longer than `pen2` and is kept. -/
theorem loopStep_guard_direction_witness :
    demoFreeType.FT_Vector_Length demoStateFirst.pen1 ≤
      demoFreeType.FT_Vector_Length
        (kernedPen demoFreeType demoRender.rotation_angle demoStateFirst.pen ⟨-70, 0⟩) ∧
    overshootGuard demoFreeType demoStateFirst.pen1
        (kernedPen demoFreeType demoRender.rotation_angle demoStateFirst.pen ⟨-70, 0⟩) =
      kernedPen demoFreeType demoRender.rotation_angle demoStateFirst.pen ⟨-70, 0⟩ :=
  ⟨by decide,
   (loopStep_guard_direction demoFreeType demoHost demoFace demoFont demoRender
      demoStateFirst 66 demoGlyphB ⟨-70, 0⟩ rfl (by decide) (by decide) (by decide)).2.2
    (by decide)⟩

/-! ## Font-engine failures during the layout -/

theorem applyKerning_isSome {O : Type} (ft : FreeType O) (face : FT_Face)
    (use_kerning : Bool) (angle : Int) (prev_glyph_index glyph_index : Nat)
    (pen2 pen : FT_Vector)
    (hk : ∀ l r, (ft.FT_Get_Kerning face l r).isSome = true) :
    (applyKerning ft face use_kerning angle prev_glyph_index glyph_index pen2 pen).isSome =
      true := by
  unfold applyKerning
  split_ifs
  · have := hk prev_glyph_index glyph_index
    cases hq : ft.FT_Get_Kerning face prev_glyph_index glyph_index
    · rw [hq] at this
      exact absurd this (by simp)
    · rfl
  · rfl

theorem loopStep_isSome {O : Type} (ft : FreeType O) (host : Host) (face : FT_Face)
    (font : PyFreeTypeFont) (render : FontRenderMode) (s : LoopState) (ch : Nat)
    (hk : ∀ l r, (ft.FT_Get_Kerning face l r).isSome = true) :
    (loopStep ft host face font render s ch).isSome = true := by
  unfold loopStep
  simp only
  cases host.findGlyph ch render with
  | none => rfl
  | some glyph =>
    simp only
    have := applyKerning_isSome ft face font.kerning render.rotation_angle
      s.prev_glyph_index glyph.glyph_index s.pen1 s.pen hk
    cases hq : applyKerning ft face font.kerning render.rotation_angle
      s.prev_glyph_index glyph.glyph_index s.pen1 s.pen
    · rw [hq] at this
      exact absurd this (by simp)
    · rfl

/-- The loop runs to its end when every kerning query succeeds. -/
theorem layoutLoop_isSome {O : Type} (ft : FreeType O) (host : Host) (face : FT_Face)
    (font : PyFreeTypeFont) (render : FontRenderMode)
    (hk : ∀ l r, (ft.FT_Get_Kerning face l r).isSome = true) (text : List Nat) :
    ∀ s, (layoutLoop ft host face font render s text).isSome = true := by
  induction text with
  | nil => intro s; rfl
  | cons ch rest ih =>
    intro s
    unfold layoutLoop
    have := loopStep_isSome ft host face font render s ch hk
    cases hq : loopStep ft host face font render s ch
    · rw [hq] at this
      exact absurd this (by simp)
    · exact ih _

/-- The layout returns a Run when the sized face is available, both
allocations succeed and every kerning query succeeds. -/
theorem LoadFontText_isSome {O : Type} (ft : FreeType O) (lim : Limits) (host : Host)
    (font : PyFreeTypeFont) (ftext : FontText) (render : FontRenderMode)
    (text : List Nat) (face : FT_Face)
    (hface : host.getFaceSized render.pt_size = some face)
    (hmg : host.malloc_glyphs text.length = true)
    (hmp : host.malloc_posns text.length = true)
    (hk : ∀ l r, (ft.FT_Get_Kerning face l r).isSome = true) :
    ∃ r, PGFT_LoadFontText ft lim host font ftext render text = some r := by
  have hgrow : ∃ ftext1, growBuffers host ftext text.length = some ftext1 := by
    unfold growBuffers
    split_ifs
    · exact ⟨_, rfl⟩
    · exact ⟨_, rfl⟩
  obtain ⟨ftext1, hgrow⟩ := hgrow
  have hl := layoutLoop_isSome ft host face font render hk text
    (initLoop lim (resetText ftext1 text.length))
  obtain ⟨s, hs⟩ := Option.isSome_iff_exists.mp hl
  exact ⟨_, LoadFontText_of_steps hface hgrow hs⟩

/-- C11 as stated fails: on the example font with the glyph of `C` failing to
load (glyph index 38, not 0), the layout of `ACB` returns a Run that holds
the glyphs of `A` and `B` only. -/
theorem LoadFontText_engine_failure_omitted :
    demoFailingFreeType.FTC_CMapCache_Lookup 67 = 38 ∧
    demoFailingFreeType.FT_Load_Glyph 38 (GetLoadFlags demoRender) = none ∧
    demoFailingHost.findGlyph 67 demoRender = none ∧
    (PGFT_LoadFontText demoFailingFreeType demoLimits demoFailingHost demoFont
        PGFT_FontTextInit demoRender [65, 67, 66]).map (fun r => r.glyphs) =
      some [some demoGlyphA, some demoGlyphB, none] := by
  decide

/-- C11, amended: a font-engine failure while resolving a codepoint (a
non-zero glyph index and no glyph from `PGFT_LoadGlyph`, which the cache
lookup hands on) does not fail the layout: the loop step skips the codepoint
like an unresolved one, and the layout returns a Run whenever the sized face
is available and the allocations and all kerning queries succeed. -/
theorem LoadFontText_engine_failure_skipped {O : Type} (ft : FreeType O) (lim : Limits)
    (host : Host) (font : PyFreeTypeFont) (ftext : FontText) (render : FontRenderMode)
    (text : List Nat) (face : FT_Face) (ch : Nat)
    (hface : host.getFaceSized render.pt_size = some face)
    (hmg : host.malloc_glyphs text.length = true)
    (hmp : host.malloc_posns text.length = true)
    (hk : ∀ l r, (ft.FT_Get_Kerning face l r).isSome = true)
    (hfail : EngineFailure ft ch render)
    (hcache : host.findGlyph ch render = PGFT_LoadGlyph ft ch render) :
    (∃ r, PGFT_LoadFontText ft lim host font ftext render text = some r) ∧
    ∀ s, loopStep ft host face font render s ch =
      some { s with pen2 := s.pen1, pen1 := s.pen } := by
  refine ⟨LoadFontText_isSome ft lim host font ftext render text face hface hmg hmp hk, ?_⟩
  intro s
  have hnone : host.findGlyph ch render = none := by rw [hcache, hfail.2]
  simp [loopStep, hnone]

/-- C11 amended, on the example font with the failing glyph of `C`: the text
`ACB`. -/
theorem LoadFontText_engine_failure_skipped_witness :
    EngineFailure demoFailingFreeType 67 demoRender ∧
    ∃ r, PGFT_LoadFontText demoFailingFreeType demoLimits demoFailingHost demoFont
      PGFT_FontTextInit demoRender [65, 67, 66] = some r :=
  ⟨⟨by decide, by decide⟩,
   (LoadFontText_engine_failure_skipped demoFailingFreeType demoLimits demoFailingHost
      demoFont PGFT_FontTextInit demoRender [65, 67, 66] demoFace 67 rfl rfl rfl
      (fun l r => by simp only [demoFailingFreeType, demoFreeType]; split_ifs <;> rfl)
      ⟨by decide, by decide⟩ rfl).1⟩

/-! ## Unresolved codepoints and the pen history -/

/-- C14 as stated fails: an unresolved codepoint changes the layout.  On the
example font, with kerning enabled, U+2603 between `A` and `B` resolves to no
glyph, and
the layout of `A`, U+2603, `B` records `B` at x = 704 with advance 1344 and
width 21, while the layout of `AB` records `B` at x = 640 with advance 1280
and width 20. -/
theorem LoadFontText_unresolved_shifts_history :
    demoHost.findGlyph 9731 demoRender = none ∧
    resolvedGlyphs demoHost demoRender [65, 9731, 66] =
      resolvedGlyphs demoHost demoRender [65, 66] ∧
    (PGFT_LoadFontText demoFreeType demoLimits demoHost demoFont PGFT_FontTextInit
        demoRender [65, 9731, 66]).map
      (fun r => (r.posns.take 2, r.advance, r.width)) =
      some ([some ⟨0, -704⟩, some ⟨704, -704⟩], ⟨1344, 0⟩, 21) ∧
    (PGFT_LoadFontText demoFreeType demoLimits demoHost demoFont PGFT_FontTextInit
        demoRender [65, 66]).map
      (fun r => (r.posns.take 2, r.advance, r.width)) =
      some ([some ⟨0, -704⟩, some ⟨640, -704⟩], ⟨1280, 0⟩, 20) := by
  decide

/-! ## The advance without kerning -/

theorem resolvedGlyphs_cons_none {host : Host} {render : FontRenderMode} {ch : Nat}
    (rest : List Nat) (h : host.findGlyph ch render = none) :
    resolvedGlyphs host render (ch :: rest) = resolvedGlyphs host render rest := by
  unfold resolvedGlyphs
  simp only [List.filterMap_cons, h]

theorem resolvedGlyphs_cons_some {host : Host} {render : FontRenderMode} {ch : Nat}
    {g : FontGlyph} (rest : List Nat) (h : host.findGlyph ch render = some g) :
    resolvedGlyphs host render (ch :: rest) = g :: resolvedGlyphs host render rest := by
  unfold resolvedGlyphs
  simp only [List.filterMap_cons, h]

/-- Without kerning the kerning block leaves the pen alone. -/
theorem applyKerning_disabled {O : Type} (ft : FreeType O) (face : FT_Face) (angle : Int)
    (prev_glyph_index glyph_index : Nat) (pen2 pen : FT_Vector) :
    applyKerning ft face false angle prev_glyph_index glyph_index pen2 pen = some pen := by
  simp [applyKerning]

theorem advancePen_components (vertical : Bool) (pen : FT_Vector) (metrics : FontMetrics) :
    (advancePen vertical pen metrics).x = pen.x + metrics.advance_rotated.x ∧
    (advancePen vertical pen metrics).y =
      (if vertical = true then pen.y + metrics.advance_rotated.y
       else pen.y - metrics.advance_rotated.y) := by
  cases vertical <;> simp [advancePen]

theorem placeGlyph_pen (vertical : Bool) (s : LoopState) (pen : FT_Vector)
    (glyph : FontGlyph) :
    (placeGlyph vertical s pen glyph).pen =
      advancePen vertical pen (activeMetrics vertical glyph) := by
  cases vertical <;> simp [placeGlyph, activeMetrics]

/-- Without kerning the loop moves the pen by the advances of the resolved
glyphs: added in `x`, added in `y` in vertical mode and subtracted in `y` in
horizontal mode. -/
theorem layoutLoop_pen_no_kerning {O : Type} {ft : FreeType O} {host : Host}
    {face : FT_Face} {font : PyFreeTypeFont} {render : FontRenderMode}
    (hk : font.kerning = false) (text : List Nat) :
    ∀ {s s1 : LoopState}, layoutLoop ft host face font render s text = some s1 →
      s1.pen.x = s.pen.x + sumAdvanceX font.vertical (resolvedGlyphs host render text) ∧
      s1.pen.y =
        (if font.vertical = true then
          s.pen.y + sumAdvanceY font.vertical (resolvedGlyphs host render text)
         else s.pen.y - sumAdvanceY font.vertical (resolvedGlyphs host render text)) := by
  induction text with
  | nil =>
    intro s s1 h
    rw [layoutLoop_nil] at h
    rw [← Option.some.inj h]
    simp [resolvedGlyphs, sumAdvanceX, sumAdvanceY]
  | cons ch rest ih =>
    intro s s1 h
    unfold layoutLoop at h
    split at h
    · exact absurd h (by simp)
    · rename_i s2 hstep
      obtain ⟨hx, hy⟩ := ih h
      rcases loopStep_cases hstep with ⟨hfind, rfl⟩ | ⟨glyph, pen, hfind, hkern, rfl⟩
      · rw [resolvedGlyphs_cons_none rest hfind]
        exact ⟨hx, hy⟩
      · rw [hk, applyKerning_disabled] at hkern
        obtain rfl : s.pen = pen := Option.some.inj hkern
        rw [resolvedGlyphs_cons_some rest hfind]
        rw [placeGlyph_pen] at hx hy
        have hc := advancePen_components font.vertical s.pen
          (activeMetrics font.vertical glyph)
        rw [hc.1] at hx
        rw [hc.2] at hy
        constructor
        · rw [hx]
          simp only [sumAdvanceX, List.map_cons, List.sum_cons]
          omega
        · rw [hy]
          simp only [sumAdvanceY, List.map_cons, List.sum_cons]
          split_ifs <;> omega

/-- C16 as stated fails: on the example font without kerning, horizontal
writing, rotated by a quarter turn, the advance vector of `A` is (0, 640)
and the final advance of the text `A` is (0, -640). -/
theorem LoadFontText_horizontal_advance_sign :
    demoPlainFont.kerning = false ∧ demoPlainFont.vertical = false ∧
    sumAdvanceX false (resolvedGlyphs demoHost demoRotated [65]) = 0 ∧
    sumAdvanceY false (resolvedGlyphs demoHost demoRotated [65]) = 640 ∧
    (PGFT_LoadFontText demoFreeType demoLimits demoHost demoPlainFont PGFT_FontTextInit
        demoRotated [65]).map (fun r => r.advance) = some ⟨0, -640⟩ := by
  decide

/-- C16, amended: with kerning disabled, for every text and in both writing
modes, the pen is never changed by the kerning block, `advance.x` is the sum
of the `x` components of the active `advance_rotated` vectors of the resolved
glyphs, and `advance.y` is the sum of their `y` components in vertical mode
and the negated sum in horizontal mode. -/
theorem LoadFontText_advance_no_kerning {O : Type} (ft : FreeType O) (lim : Limits)
    (host : Host) (font : PyFreeTypeFont) (ftext : FontText) (render : FontRenderMode)
    (text : List Nat) (r : FontText)
    (hk : font.kerning = false)
    (h : PGFT_LoadFontText ft lim host font ftext render text = some r) :
    r.advance.x = sumAdvanceX font.vertical (resolvedGlyphs host render text) ∧
    r.advance.y =
      (if font.vertical = true then
        sumAdvanceY font.vertical (resolvedGlyphs host render text)
       else -sumAdvanceY font.vertical (resolvedGlyphs host render text)) ∧
    ∀ (face : FT_Face) (prev_glyph_index glyph_index : Nat) (pen2 pen : FT_Vector),
      applyKerning ft face font.kerning render.rotation_angle prev_glyph_index glyph_index
        pen2 pen = some pen := by
  obtain ⟨face, ftext1, s, _, _, hloop, hr⟩ := LoadFontText_success h
  obtain ⟨hx, hy⟩ := layoutLoop_pen_no_kerning hk text hloop
  subst hr
  refine ⟨?_, ?_, ?_⟩
  · simp only [finalise]
    rw [hx]
    simp [initLoop]
  · simp only [finalise]
    rw [hy]
    simp [initLoop]
  · intro face1 p g pen2 pen
    rw [hk]
    exact applyKerning_disabled ft face1 render.rotation_angle p g pen2 pen

/-- C16 amended, on the example font: the text `A` rotated by a quarter turn,
horizontal writing without kerning. -/
theorem LoadFontText_advance_no_kerning_witness :
    PGFT_LoadFontText demoFreeType demoLimits demoHost demoPlainFont PGFT_FontTextInit
        demoRotated [65] = some (demoLayout demoPlainFont demoRotated [65]) ∧
    (demoLayout demoPlainFont demoRotated [65]).advance.x =
      sumAdvanceX false (resolvedGlyphs demoHost demoRotated [65]) ∧
    (demoLayout demoPlainFont demoRotated [65]).advance.y =
      (if demoPlainFont.vertical = true then
        sumAdvanceY demoPlainFont.vertical (resolvedGlyphs demoHost demoRotated [65])
       else -sumAdvanceY demoPlainFont.vertical (resolvedGlyphs demoHost demoRotated [65])) :=
  ⟨by decide,
   (LoadFontText_advance_no_kerning demoFreeType demoLimits demoHost demoPlainFont
      PGFT_FontTextInit demoRotated [65] _ rfl (by decide)).1,
   (LoadFontText_advance_no_kerning demoFreeType demoLimits demoHost demoPlainFont
      PGFT_FontTextInit demoRotated [65] _ rfl (by decide)).2.1⟩

/-! ## The buffers: capacity and contents -/

theorem growBuffers_size {host : Host} {ftext ftext1 : FontText} {n : Nat}
    (h : growBuffers host ftext n = some ftext1) :
    ftext1.buffer_size = max ftext.buffer_size n ∧ ftext1.length = ftext.length ∧
    (ftext.WellFormed → ftext1.WellFormed) := by
  unfold growBuffers at h
  split_ifs at h with h1 h2 h3
  · rw [← Option.some.inj h]
    refine ⟨?_, rfl, ?_⟩
    · simp only
      omega
    · intro _
      simp [FontText.WellFormed]
  · rw [← Option.some.inj h]
    refine ⟨?_, rfl, fun hwf => hwf⟩
    omega

/-- A successful call leaves the capacity at the larger of the old capacity
and the text length, and the reported length at the text length; it keeps
the buffers as long as the capacity says. -/
theorem LoadFontText_sizes {O : Type} {ft : FreeType O} {lim : Limits} {host : Host}
    {font : PyFreeTypeFont} {ftext : FontText} {render : FontRenderMode}
    {text : List Nat} {r : FontText}
    (h : PGFT_LoadFontText ft lim host font ftext render text = some r) :
    r.buffer_size = max ftext.buffer_size text.length ∧ r.length = text.length := by
  obtain ⟨_, ftext1, _, _, hgrow, _, hr⟩ := LoadFontText_success h
  obtain ⟨hsize, _, _⟩ := growBuffers_size hgrow
  subst hr
  exact ⟨hsize, rfl⟩

theorem foldl_max_le (l : List Nat) : ∀ a : Nat, a ≤ l.foldl max a := by
  induction l with
  | nil => intro a; exact le_refl a
  | cons x t ih =>
    intro a
    exact le_trans (le_max_left a x) (ih (max a x))

/-- A call that returns a Run leaves that Run's state in place. -/
theorem LoadFontText_state_of_some {O : Type} {ft : FreeType O} {lim : Limits}
    {host : Host} {font : PyFreeTypeFont} {ftext : FontText} {render : FontRenderMode}
    {text : List Nat} {r : FontText}
    (h : PGFT_LoadFontText ft lim host font ftext render text = some r) :
    PGFT_LoadFontText_state ft lim host font ftext render text = r := by
  obtain ⟨face, ftext1, s, hface, hgrow, hloop, hr⟩ := LoadFontText_success h
  unfold PGFT_LoadFontText_state
  simp only [hface, hgrow, hloop]
  exact hr.symm

/-- When the sized face is available and the buffers could be grown, the
call leaves the capacity at the larger of the old capacity and the text
length and the reported length at the text length, whether the loop then
runs to its end or stops at a failing kerning query. -/
theorem LoadFontText_state_sizes {O : Type} (ft : FreeType O) (lim : Limits) (host : Host)
    (font : PyFreeTypeFont) (ftext : FontText) (render : FontRenderMode)
    (text : List Nat)
    (hok : callResourcesOk host ftext ⟨font, render, text⟩ = true) :
    (PGFT_LoadFontText_state ft lim host font ftext render text).buffer_size =
      max ftext.buffer_size text.length ∧
    (PGFT_LoadFontText_state ft lim host font ftext render text).length = text.length := by
  simp only [callResourcesOk, Bool.and_eq_true] at hok
  obtain ⟨face, hface⟩ := Option.isSome_iff_exists.mp hok.1
  obtain ⟨ftext1, hgrow⟩ := Option.isSome_iff_exists.mp hok.2
  obtain ⟨hsize, _, _⟩ := growBuffers_size hgrow
  unfold PGFT_LoadFontText_state
  simp only [hface, hgrow]
  cases layoutLoop ft host face font render
      (initLoop lim (resetText ftext1 text.length)) text with
  | none => exact ⟨hsize, rfl⟩
  | some s => exact ⟨hsize, rfl⟩

/-- Whatever a call does, it does not lower the capacity, and it keeps
`length ≤ buffer_size`. -/
theorem LoadFontText_state_monotone {O : Type} (ft : FreeType O) (lim : Limits)
    (host : Host) (font : PyFreeTypeFont) (ftext : FontText) (render : FontRenderMode)
    (text : List Nat) :
    ftext.buffer_size ≤
      (PGFT_LoadFontText_state ft lim host font ftext render text).buffer_size ∧
    (ftext.length ≤ ftext.buffer_size →
      (PGFT_LoadFontText_state ft lim host font ftext render text).length ≤
        (PGFT_LoadFontText_state ft lim host font ftext render text).buffer_size) := by
  by_cases hok : callResourcesOk host ftext ⟨font, render, text⟩ = true
  · obtain ⟨hb, hl⟩ := LoadFontText_state_sizes ft lim host font ftext render text hok
    rw [hb, hl]
    exact ⟨le_max_left _ _, fun _ => le_max_right _ _⟩
  · have hsame :
        (PGFT_LoadFontText_state ft lim host font ftext render text).buffer_size =
          ftext.buffer_size ∧
        (PGFT_LoadFontText_state ft lim host font ftext render text).length =
          ftext.length := by
      cases hface : host.getFaceSized render.pt_size with
      | none =>
        have e : PGFT_LoadFontText_state ft lim host font ftext render text = ftext := by
          simp only [PGFT_LoadFontText_state, hface]
        rw [e]
        exact ⟨rfl, rfl⟩
      | some face =>
        cases hgrow : growBuffers host ftext text.length with
        | none =>
          have e : PGFT_LoadFontText_state ft lim host font ftext render text =
              allocFailureState host ftext text.length := by
            simp only [PGFT_LoadFontText_state, hface, hgrow]
          rw [e]
          unfold allocFailureState
          split_ifs <;> exact ⟨rfl, rfl⟩
        | some ftext1 =>
          exact absurd (by simp [callResourcesOk, hface, hgrow]) hok
    rw [hsame.1, hsame.2]
    exact ⟨le_refl _, fun h => h⟩

/-- Along a sequence of calls whose face lookups and allocations succeed the
capacity is the largest text length so far (or the initial capacity, if
larger), and the reported length stays within the capacity. -/
theorem layoutCalls_sizes {O : Type} (ft : FreeType O) (lim : Limits) (host : Host)
    (calls : List LayoutCall) :
    ∀ t0 : FontText, callsResourcesOk ft lim host t0 calls = true →
      t0.length ≤ t0.buffer_size →
      (layoutCalls ft lim host t0 calls).buffer_size =
        (calls.map (fun call => call.text.length)).foldl max t0.buffer_size ∧
      (layoutCalls ft lim host t0 calls).length ≤
        (layoutCalls ft lim host t0 calls).buffer_size := by
  induction calls with
  | nil =>
    intro t0 _ h0
    exact ⟨rfl, h0⟩
  | cons call rest ih =>
    intro t0 hok _
    simp only [callsResourcesOk, Bool.and_eq_true] at hok
    obtain ⟨hb, hl⟩ := LoadFontText_state_sizes ft lim host call.font t0 call.render
      call.text hok.1
    obtain ⟨h1, h2⟩ := ih _ hok.2 (by rw [hb, hl]; exact le_max_right _ _)
    refine ⟨?_, h2⟩
    unfold layoutCalls
    rw [h1, hb]
    rfl

/-- C20: for every sequence of `PGFT_LoadFontText` calls whose face lookups
and allocations succeed, starting from `PGFT_FontTextInit` (capacity 0), each
call working on the state the calls before it left in place whether they
returned a Run or `NULL`: the capacity after the sequence is the largest text
length so far and `length ≤ buffer_size` holds; one more such call on a text
of length `n` sets `buffer_size` to `max (old buffer_size) n`, so it does not
decrease, and leaves `length = n ≤ buffer_size`. -/
theorem layoutCalls_buffer_size {O : Type} (ft : FreeType O) (lim : Limits) (host : Host)
    (calls : List LayoutCall) (call : LayoutCall)
    (hseq : callsResourcesOk ft lim host PGFT_FontTextInit calls = true)
    (hcall : callResourcesOk host (layoutCalls ft lim host PGFT_FontTextInit calls) call =
      true) :
    PGFT_FontTextInit.buffer_size = 0 ∧
    (layoutCalls ft lim host PGFT_FontTextInit calls).buffer_size = maxTextLength calls ∧
    (layoutCalls ft lim host PGFT_FontTextInit calls).length ≤
      (layoutCalls ft lim host PGFT_FontTextInit calls).buffer_size ∧
    (PGFT_LoadFontText_state ft lim host call.font
        (layoutCalls ft lim host PGFT_FontTextInit calls) call.render
        call.text).buffer_size =
      max (layoutCalls ft lim host PGFT_FontTextInit calls).buffer_size call.text.length ∧
    (layoutCalls ft lim host PGFT_FontTextInit calls).buffer_size ≤
      (PGFT_LoadFontText_state ft lim host call.font
        (layoutCalls ft lim host PGFT_FontTextInit calls) call.render
        call.text).buffer_size ∧
    (PGFT_LoadFontText_state ft lim host call.font
        (layoutCalls ft lim host PGFT_FontTextInit calls) call.render
        call.text).length = call.text.length ∧
    (PGFT_LoadFontText_state ft lim host call.font
        (layoutCalls ft lim host PGFT_FontTextInit calls) call.render
        call.text).length ≤
      (PGFT_LoadFontText_state ft lim host call.font
        (layoutCalls ft lim host PGFT_FontTextInit calls) call.render
        call.text).buffer_size := by
  obtain ⟨h1, h2⟩ := layoutCalls_sizes ft lim host calls PGFT_FontTextInit hseq (le_refl 0)
  obtain ⟨hb, hl⟩ := LoadFontText_state_sizes ft lim host call.font
    (layoutCalls ft lim host PGFT_FontTextInit calls) call.render call.text hcall
  refine ⟨rfl, h1, h2, hb, ?_, hl, ?_⟩
  · rw [hb]
    exact le_max_left _ _
  · rw [hb, hl]
    exact le_max_right _ _

/-- C20, on the example font with the failing kerning query: the text `AB`
with kerning returns `NULL` and still leaves capacity 2 and length 2 in
place, the text `A` then leaves capacity 2 and length 1, and the text `A`,
U+2603, `B` raises the capacity to 3. -/
theorem layoutCalls_buffer_size_witness :
    PGFT_LoadFontText demoKerningFails demoLimits demoHost demoFont PGFT_FontTextInit
        demoRender [65, 66] = none ∧
    (PGFT_LoadFontText_state demoKerningFails demoLimits demoHost demoFont
        PGFT_FontTextInit demoRender [65, 66]).buffer_size = 2 ∧
    (PGFT_LoadFontText_state demoKerningFails demoLimits demoHost demoFont
        PGFT_FontTextInit demoRender [65, 66]).length = 2 ∧
    callsResourcesOk demoKerningFails demoLimits demoHost PGFT_FontTextInit demoCalls =
      true ∧
    (layoutCalls demoKerningFails demoLimits demoHost PGFT_FontTextInit
        demoCalls).buffer_size = 2 ∧
    (layoutCalls demoKerningFails demoLimits demoHost PGFT_FontTextInit
        demoCalls).length = 1 ∧
    (PGFT_LoadFontText_state demoKerningFails demoLimits demoHost demoNextCall.font
        (layoutCalls demoKerningFails demoLimits demoHost PGFT_FontTextInit demoCalls)
        demoNextCall.render demoNextCall.text).buffer_size =
      max (layoutCalls demoKerningFails demoLimits demoHost PGFT_FontTextInit
        demoCalls).buffer_size demoNextCall.text.length ∧
    (PGFT_LoadFontText_state demoKerningFails demoLimits demoHost demoNextCall.font
        (layoutCalls demoKerningFails demoLimits demoHost PGFT_FontTextInit demoCalls)
        demoNextCall.render demoNextCall.text).length = demoNextCall.text.length :=
  ⟨by decide, by decide, by decide, by decide, by decide, by decide,
   (layoutCalls_buffer_size demoKerningFails demoLimits demoHost demoCalls demoNextCall
      (by decide) (by decide)).2.2.2.1,
   (layoutCalls_buffer_size demoKerningFails demoLimits demoHost demoCalls demoNextCall
      (by decide) (by decide)).2.2.2.2.2.1⟩

/-! ## The recorded glyphs and positions -/

theorem layoutLoop_append {O : Type} {ft : FreeType O} {host : Host} {face : FT_Face}
    {font : PyFreeTypeFont} {render : FontRenderMode} (pre post : List Nat) :
    ∀ {s s1 : LoopState}, layoutLoop ft host face font render s (pre ++ post) = some s1 →
      ∃ s2, layoutLoop ft host face font render s pre = some s2 ∧
        layoutLoop ft host face font render s2 post = some s1 := by
  induction pre with
  | nil =>
    intro s s1 h
    exact ⟨s, rfl, h⟩
  | cons ch rest ih =>
    intro s s1 h
    rw [List.cons_append] at h
    unfold layoutLoop at h
    split at h
    · exact absurd h (by simp)
    · rename_i s3 hstep
      obtain ⟨s2, h1, h2⟩ := ih h
      refine ⟨s2, ?_, h2⟩
      unfold layoutLoop
      rw [hstep]
      exact h1

theorem take_succ_set {α : Type} (l : List α) :
    ∀ (c : Nat) (a : α), c < l.length → (l.set c a).take (c + 1) = l.take c ++ [a] := by
  induction l with
  | nil =>
    intro c a h
    exact absurd h (Nat.not_lt_zero c)
  | cons x t ih =>
    intro c a h
    cases c with
    | zero => simp
    | succ c =>
      have hc : c < t.length := by simpa using h
      simp [ih c a hc]

/-- One loop step keeps the length of both buffers, moves the write cursor by
one exactly when the codepoint resolves, and leaves every slot below the old
cursor and from the new cursor on as it was. -/
theorem loopStep_frame {O : Type} {ft : FreeType O} {host : Host} {face : FT_Face}
    {font : PyFreeTypeFont} {render : FontRenderMode} {s s1 : LoopState} {ch : Nat}
    (h : loopStep ft host face font render s ch = some s1) :
    s1.count = s.count + (if (host.findGlyph ch render).isSome = true then 1 else 0) ∧
    s1.glyphs.length = s.glyphs.length ∧ s1.posns.length = s.posns.length ∧
    ∀ i, i < s.count ∨ s1.count ≤ i →
      s1.glyphs[i]? = s.glyphs[i]? ∧ s1.posns[i]? = s.posns[i]? := by
  rcases loopStep_cases h with ⟨hfind, rfl⟩ | ⟨glyph, pen, hfind, _, rfl⟩
  · exact ⟨by simp [hfind], rfl, rfl, fun _ _ => ⟨rfl, rfl⟩⟩
  · obtain ⟨hc, hgl, hpo⟩ := placeGlyph_slots font.vertical
      { s with pen2 := s.pen1, pen1 := s.pen } pen glyph
    rw [hgl, hpo, hc]
    refine ⟨by simp [hfind], by simp, by simp, ?_⟩
    intro i hi
    have hne : s.count ≠ i := by
      simp only at hi
      omega
    exact ⟨List.getElem?_set_ne hne, List.getElem?_set_ne hne⟩

/-- The loop keeps the length of both buffers, leaves the slots below the
write cursor it started from and the slots from its final write cursor on
as they were, and moves the write cursor by the number of resolved
codepoints. -/
theorem layoutLoop_frame {O : Type} {ft : FreeType O} {host : Host} {face : FT_Face}
    {font : PyFreeTypeFont} {render : FontRenderMode} (text : List Nat) :
    ∀ {s s1 : LoopState}, layoutLoop ft host face font render s text = some s1 →
      s1.count = s.count + resolvedCount host render text ∧
      s1.glyphs.length = s.glyphs.length ∧ s1.posns.length = s.posns.length ∧
      ∀ i, i < s.count ∨ s1.count ≤ i →
        s1.glyphs[i]? = s.glyphs[i]? ∧ s1.posns[i]? = s.posns[i]? := by
  induction text with
  | nil =>
    intro s s1 h
    rw [layoutLoop_nil] at h
    rw [← Option.some.inj h]
    exact ⟨by simp [resolvedCount], rfl, rfl, fun _ _ => ⟨rfl, rfl⟩⟩
  | cons ch rest ih =>
    intro s s1 h
    unfold layoutLoop at h
    split at h
    · exact absurd h (by simp)
    · rename_i s2 hstep
      obtain ⟨hc1, hg1, hp1, hf1⟩ := ih h
      obtain ⟨hc2, hg2, hp2, hf2⟩ := loopStep_frame hstep
      refine ⟨?_, by rw [hg1, hg2], by rw [hp1, hp2], ?_⟩
      · rw [hc1, hc2, resolvedCount_cons]
        omega
      · intro i hi
        have hle : s.count ≤ s2.count := by rw [hc2]; omega
        have hle1 : s2.count ≤ s1.count := by rw [hc1]; omega
        obtain ⟨a1, a2⟩ := hf1 i (by omega)
        obtain ⟨b1, b2⟩ := hf2 i (by omega)
        exact ⟨a1.trans b1, a2.trans b2⟩

/-- With room in the glyph buffer for the codepoints that resolve, the loop
appends their glyphs, in input order, to the slots below the write cursor. -/
theorem layoutLoop_glyphs_take {O : Type} {ft : FreeType O} {host : Host} {face : FT_Face}
    {font : PyFreeTypeFont} {render : FontRenderMode} (text : List Nat) :
    ∀ {s s1 : LoopState}, layoutLoop ft host face font render s text = some s1 →
      s.count + resolvedCount host render text ≤ s.glyphs.length →
      s1.glyphs.take s1.count =
        s.glyphs.take s.count ++ (resolvedGlyphs host render text).map some := by
  induction text with
  | nil =>
    intro s s1 h _
    rw [layoutLoop_nil] at h
    rw [← Option.some.inj h]
    simp [resolvedGlyphs]
  | cons ch rest ih =>
    intro s s1 h hroom
    unfold layoutLoop at h
    split at h
    · exact absurd h (by simp)
    · rename_i s2 hstep
      rw [resolvedCount_cons] at hroom
      rcases loopStep_cases hstep with ⟨hfind, rfl⟩ | ⟨glyph, pen, hfind, _, rfl⟩
      · rw [resolvedGlyphs_cons_none rest hfind]
        simp only [hfind, Option.isSome_none, Bool.false_eq_true, if_false, zero_add]
          at hroom
        exact @ih { s with pen2 := s.pen1, pen1 := s.pen } s1 h hroom
      · simp only [hfind, Option.isSome_some, if_true] at hroom
        obtain ⟨hc, hgl, _⟩ := placeGlyph_slots font.vertical
          { s with pen2 := s.pen1, pen1 := s.pen } pen glyph
        have hlen : (placeGlyph font.vertical { s with pen2 := s.pen1, pen1 := s.pen } pen
            glyph).glyphs.length = s.glyphs.length := by
          rw [hgl]
          simp
        have := ih h (by rw [hc, hlen]; simp only; omega)
        rw [this, hc, hgl, resolvedGlyphs_cons_some rest hfind]
        simp only
        rw [take_succ_set s.glyphs s.count (some glyph) (by omega)]
        simp

/-- C13: after a successful `PGFT_LoadFontText` on a well-formed layout state,
with `k` the number of codepoints that resolve: the first `k` slots of the
glyph buffer are exactly the resolved glyphs in input order; for every
codepoint that resolves, with `i` the number of resolved codepoints before
it, slot `i` of the glyph buffer holds its glyph and slot `i` of the position
buffer holds the position computed when the loop placed it (from the pen the
kerning block yields in the loop state reached after the codepoints before
it); and the slots from `k` on are as the loop received them. -/
theorem LoadFontText_slots {O : Type} (ft : FreeType O) (lim : Limits) (host : Host)
    (font : PyFreeTypeFont) (ftext : FontText) (render : FontRenderMode)
    (text : List Nat) (r : FontText)
    (hwf : ftext.WellFormed)
    (h : PGFT_LoadFontText ft lim host font ftext render text = some r) :
    ∃ face ftext1,
      host.getFaceSized render.pt_size = some face ∧
      growBuffers host ftext text.length = some ftext1 ∧
      r.glyphs.take (resolvedCount host render text) =
        (resolvedGlyphs host render text).map some ∧
      (∀ pre ch post g, text = pre ++ ch :: post → host.findGlyph ch render = some g →
        ∃ s pen,
          layoutLoop ft host face font render
            (initLoop lim (resetText ftext1 text.length)) pre = some s ∧
          applyKerning ft face font.kerning render.rotation_angle s.prev_glyph_index
            g.glyph_index s.pen1 s.pen = some pen ∧
          r.glyphs[resolvedCount host render pre]? = some (some g) ∧
          r.posns[resolvedCount host render pre]? =
            some (some (glyphPos font.vertical pen (activeMetrics font.vertical g)))) ∧
      (∀ i, resolvedCount host render text ≤ i →
        r.glyphs[i]? = ftext1.glyphs[i]? ∧ r.posns[i]? = ftext1.posns[i]?) := by
  obtain ⟨face, ftext1, sf, hface, hgrow, hloop, hr⟩ := LoadFontText_success h
  obtain ⟨hsize, _, hwf1⟩ := growBuffers_size hgrow
  obtain ⟨hwg, hwp⟩ := hwf1 hwf
  have hcap : text.length ≤ ftext1.buffer_size := by rw [hsize]; exact le_max_right _ _
  have hrc : ∀ l : List Nat, resolvedCount host render l ≤ l.length := by
    intro l
    unfold resolvedCount
    exact List.length_filter_le _ l
  obtain ⟨hcf, _, _, hff⟩ := layoutLoop_frame text hloop
  have hcount : sf.count = resolvedCount host render text := by
    rw [hcf]
    simp [initLoop]
  subst hr
  refine ⟨face, ftext1, hface, hgrow, ?_, ?_, ?_⟩
  · have := layoutLoop_glyphs_take text hloop (by
      have := hrc text
      simp only [initLoop, resetText, zero_add]
      omega)
    rw [hcount] at this
    simpa [finalise, initLoop] using this
  · intro pre ch post g htext hfind
    rw [htext] at hloop
    obtain ⟨s, hpre, hrest⟩ := layoutLoop_append pre (ch :: post) hloop
    unfold layoutLoop at hrest
    split at hrest
    · exact absurd hrest (by simp)
    · rename_i s2 hstep
      rcases loopStep_cases hstep with ⟨hnone, _⟩ | ⟨glyph, pen, hsome, hkern, hs2⟩
      · rw [hfind] at hnone
        exact absurd hnone (by simp)
      · rw [hfind] at hsome
        obtain rfl : g = glyph := Option.some.inj hsome
        obtain ⟨hcp, hgp, hpp, _⟩ := layoutLoop_frame pre hpre
        have hsc : s.count = resolvedCount host render pre := by
          rw [hcp]
          simp [initLoop]
        have hlen : text.length = pre.length + (post.length + 1) := by
          rw [htext]
          simp
        have hpl := hrc pre
        have hroomg : s.count < s.glyphs.length := by
          rw [hgp, hsc]
          simp only [initLoop, resetText]
          omega
        have hroomp : s.count < s.posns.length := by
          rw [hpp, hsc]
          simp only [initLoop, resetText]
          omega
        obtain ⟨hc2, hg2, hp2⟩ := placeGlyph_slots font.vertical
          { s with pen2 := s.pen1, pen1 := s.pen } pen g
        obtain ⟨_, _, _, hfr⟩ := layoutLoop_frame post hrest
        have hkeep := hfr s.count (Or.inl (by rw [hs2, hc2]; simp))
        refine ⟨s, pen, hpre, hkern, ?_, ?_⟩
        · simp only [finalise]
          rw [← hsc, hkeep.1, hs2, hg2]
          simp only
          rw [List.getElem?_set]
          simp [hroomg]
        · simp only [finalise]
          rw [← hsc, hkeep.2, hs2, hp2]
          simp only
          rw [List.getElem?_set]
          simp [hroomp]
  · intro i hi
    have := hff i (Or.inr (by rw [hcount]; exact hi))
    simpa [finalise, initLoop, resetText] using this

/-- C13, on the example font: the text `A`, U+2603, `B` from a fresh state;
`B` is the second resolved codepoint and fills slot 1, slot 2 is not
written. -/
theorem LoadFontText_slots_witness :
    PGFT_FontTextInit.WellFormed ∧
    PGFT_LoadFontText demoFreeType demoLimits demoHost demoFont PGFT_FontTextInit
        demoRender [65, 9731, 66] = some (demoLayout demoFont demoRender [65, 9731, 66]) ∧
    resolvedCount demoHost demoRender [65, 9731, 66] = 2 ∧
    (demoLayout demoFont demoRender [65, 9731, 66]).glyphs =
      [some demoGlyphA, some demoGlyphB, none] ∧
    (demoLayout demoFont demoRender [65, 9731, 66]).posns =
      [some ⟨0, -704⟩, some ⟨704, -704⟩, none] ∧
    ∃ face ftext1,
      demoHost.getFaceSized demoRender.pt_size = some face ∧
      growBuffers demoHost PGFT_FontTextInit 3 = some ftext1 ∧
      (demoLayout demoFont demoRender [65, 9731, 66]).glyphs.take
          (resolvedCount demoHost demoRender [65, 9731, 66]) =
        (resolvedGlyphs demoHost demoRender [65, 9731, 66]).map some :=
  ⟨⟨rfl, rfl⟩, by decide, by decide, by decide, by decide,
   (LoadFontText_slots demoFreeType demoLimits demoHost demoFont PGFT_FontTextInit
      demoRender [65, 9731, 66] _ ⟨rfl, rfl⟩ (by decide)).imp
    (fun _ h => h.imp (fun _ k => ⟨k.1, k.2.1, k.2.2.1⟩))⟩

/-! ## Removing the unresolved codepoints -/

/-- An unresolved codepoint only shifts the pen history. -/
theorem loopStep_unresolved {O : Type} (ft : FreeType O) (host : Host) (face : FT_Face)
    (font : PyFreeTypeFont) (render : FontRenderMode) (s : LoopState) (ch : Nat)
    (hnone : host.findGlyph ch render = none) :
    loopStep ft host face font render s ch =
      some { s with pen2 := s.pen1, pen1 := s.pen } := by
  simp [loopStep, hnone]

theorem placeGlyph_SamePlacement (vertical : Bool) (s t : LoopState) (glyph : FontGlyph)
    (hsim : SamePlacement s t)
    (hsg : s.count < s.glyphs.length) (hsp : s.count < s.posns.length)
    (htg : t.count < t.glyphs.length) (htp : t.count < t.posns.length)
    (s0 t0 : LoopState)
    (hs0 : s0 = { s with pen2 := s.pen1, pen1 := s.pen })
    (ht0 : t0 = { t with pen2 := t.pen1, pen1 := t.pen }) :
    SamePlacement (placeGlyph vertical s0 s.pen glyph) (placeGlyph vertical t0 t.pen glyph) := by
  obtain ⟨hpen, hprev, hminx, hmaxx, hminy, hmaxy, htop, hcount, hg, hp⟩ := hsim
  subst hs0 ht0
  have hg1 := take_succ_set s.glyphs s.count (some glyph) hsg
  have hg2 := take_succ_set t.glyphs t.count (some glyph) htg
  have hp1 := take_succ_set s.posns s.count
    (some (glyphPos vertical s.pen (activeMetrics vertical glyph))) hsp
  have hp2 := take_succ_set t.posns t.count
    (some (glyphPos vertical t.pen (activeMetrics vertical glyph))) htp
  obtain ⟨c1, g1, p1⟩ := placeGlyph_slots vertical
    { s with pen2 := s.pen1, pen1 := s.pen } s.pen glyph
  obtain ⟨c2, g2, p2⟩ := placeGlyph_slots vertical
    { t with pen2 := t.pen1, pen1 := t.pen } t.pen glyph
  refine ⟨?_, ?_, ?_, ?_, ?_, ?_, ?_, ?_, ?_, ?_⟩
  · rw [placeGlyph_pen, placeGlyph_pen, hpen]
  · simp [placeGlyph]
  · simp only [placeGlyph, hpen, hminx]
  · simp only [placeGlyph, hpen, hmaxx]
  · simp only [placeGlyph, hpen, hminy]
  · simp only [placeGlyph, hpen, hmaxy]
  · simp only [placeGlyph, htop]
  · rw [c1, c2]
    simp only
    rw [hcount]
  · rw [c1, c2, g1, g2]
    simp only
    rw [hg1, hg2, hg]
  · rw [c1, c2, p1, p2]
    simp only
    rw [hp1, hp2, hp, hpen]

theorem resolvedText_cons_none {host : Host} {render : FontRenderMode} {ch : Nat}
    (rest : List Nat) (h : host.findGlyph ch render = none) :
    resolvedText host render (ch :: rest) = resolvedText host render rest := by
  unfold resolvedText
  rw [List.filter_cons]
  simp [h]

theorem resolvedText_cons_some {host : Host} {render : FontRenderMode} {ch : Nat}
    {g : FontGlyph} (rest : List Nat) (h : host.findGlyph ch render = some g) :
    resolvedText host render (ch :: rest) = ch :: resolvedText host render rest := by
  unfold resolvedText
  rw [List.filter_cons]
  simp [h]

/-- Without kerning, the loop on a text and the loop on the text without its
unresolved codepoints keep two states in the same placement. -/
theorem layoutLoop_SamePlacement {O : Type} {ft : FreeType O} {host : Host}
    {face : FT_Face} {font : PyFreeTypeFont} {render : FontRenderMode}
    (hk : font.kerning = false) (text : List Nat) :
    ∀ {s s1 t t1 : LoopState},
      layoutLoop ft host face font render s text = some s1 →
      layoutLoop ft host face font render t (resolvedText host render text) = some t1 →
      SamePlacement s t →
      s.count + resolvedCount host render text ≤ s.glyphs.length →
      s.count + resolvedCount host render text ≤ s.posns.length →
      t.count + resolvedCount host render text ≤ t.glyphs.length →
      t.count + resolvedCount host render text ≤ t.posns.length →
      SamePlacement s1 t1 := by
  induction text with
  | nil =>
    intro s s1 t t1 hs ht hsim _ _ _ _
    rw [layoutLoop_nil] at hs
    have ht' : layoutLoop ft host face font render t [] = some t1 := ht
    rw [layoutLoop_nil] at ht'
    rw [← Option.some.inj hs, ← Option.some.inj ht']
    exact hsim
  | cons ch rest ih =>
    intro s s1 t t1 hs ht hsim r1 r2 r3 r4
    rw [resolvedCount_cons] at r1 r2 r3 r4
    unfold layoutLoop at hs
    split at hs
    · exact absurd hs (by simp)
    · rename_i s2 hstep
      rcases loopStep_cases hstep with ⟨hfind, rfl⟩ | ⟨glyph, pen, hfind, hkern, rfl⟩
      · rw [resolvedText_cons_none rest hfind] at ht
        simp only [hfind, Option.isSome_none, Bool.false_eq_true, if_false, zero_add]
          at r1 r2 r3 r4
        exact @ih { s with pen2 := s.pen1, pen1 := s.pen } s1 t t1 hs ht hsim r1 r2 r3 r4
      · rw [resolvedText_cons_some rest hfind] at ht
        simp only [hfind, Option.isSome_some, if_true] at r1 r2 r3 r4
        unfold layoutLoop at ht
        split at ht
        · exact absurd ht (by simp)
        · rename_i t2 htstep
          rcases loopStep_cases htstep with ⟨hnone, _⟩ | ⟨glyph2, pen2, hfind2, hkern2, rfl⟩
          · rw [hfind] at hnone
            exact absurd hnone (by simp)
          · rw [hfind] at hfind2
            obtain rfl : glyph = glyph2 := Option.some.inj hfind2
            rw [hk, applyKerning_disabled] at hkern hkern2
            obtain rfl : s.pen = pen := Option.some.inj hkern
            obtain rfl : t.pen = pen2 := Option.some.inj hkern2
            have hsim2 := placeGlyph_SamePlacement font.vertical s t glyph hsim
              (by omega) (by omega) (by omega) (by omega) _ _ rfl rfl
            obtain ⟨c1, g1, p1⟩ := placeGlyph_slots font.vertical
              { s with pen2 := s.pen1, pen1 := s.pen } s.pen glyph
            obtain ⟨c2, g2, p2⟩ := placeGlyph_slots font.vertical
              { t with pen2 := t.pen1, pen1 := t.pen } t.pen glyph
            refine ih hs ht hsim2 ?_ ?_ ?_ ?_
            · rw [c1, g1]; simp only [List.length_set]; omega
            · rw [c1, p1]; simp only [List.length_set]; omega
            · rw [c2, g2]; simp only [List.length_set]; omega
            · rw [c2, p2]; simp only [List.length_set]; omega

theorem finalExtents_SamePlacement {O : Type} (ft : FreeType O) (face : FT_Face)
    (font : PyFreeTypeFont) (render : FontRenderMode) {s t : LoopState}
    (hsim : SamePlacement s t) :
    finalExtents ft face font render s = finalExtents ft face font render t := by
  obtain ⟨hpen, _, hminx, hmaxx, hminy, hmaxy, _, _, _, _⟩ := hsim
  simp only [finalExtents, foldPen, hpen, hminx, hmaxx, hminy, hmaxy]

/-- C14, amended: an unresolved codepoint leaves the pen, the extents, `top`,
the previous glyph index and the buffers alone but still shifts the pen
history (`pen2 := pen1`, `pen1 := pen`), which the overshoot guard of a later
kerned glyph reads.  With kerning disabled the history is never read: for
every text, writing mode and render mode, a successful layout of a
well-formed state gives the same recorded positions, advance, offset, width,
height, left and top as a successful layout of the text with the unresolved
codepoints removed. -/
theorem LoadFontText_unresolved_removed {O : Type} (ft : FreeType O) (lim : Limits)
    (host : Host) (font : PyFreeTypeFont) (ftext : FontText) (render : FontRenderMode)
    (text : List Nat) (r r1 : FontText)
    (hwf : ftext.WellFormed) (hk : font.kerning = false)
    (h : PGFT_LoadFontText ft lim host font ftext render text = some r)
    (h1 : PGFT_LoadFontText ft lim host font ftext render
      (resolvedText host render text) = some r1) :
    r.posns.take (resolvedCount host render text) =
      r1.posns.take (resolvedCount host render text) ∧
    r.advance = r1.advance ∧ r.offset = r1.offset ∧ r.width = r1.width ∧
    r.height = r1.height ∧ r.left = r1.left ∧ r.top = r1.top ∧
    ∀ (face : FT_Face) (s : LoopState) (ch : Nat), host.findGlyph ch render = none →
      loopStep ft host face font render s ch =
        some { s with pen2 := s.pen1, pen1 := s.pen } := by
  obtain ⟨face, ftext1, s, hface, hgrow, hloop, hr⟩ := LoadFontText_success h
  obtain ⟨face1, ftext2, t, hface1, hgrow1, hloop1, hr1⟩ := LoadFontText_success h1
  rw [hface] at hface1
  obtain rfl : face = face1 := Option.some.inj hface1
  obtain ⟨hsize, _, hwf1⟩ := growBuffers_size hgrow
  obtain ⟨hsize1, _, hwf2⟩ := growBuffers_size hgrow1
  obtain ⟨hwg, hwp⟩ := hwf1 hwf
  obtain ⟨hwg1, hwp1⟩ := hwf2 hwf
  have hrc : resolvedCount host render text ≤ text.length := by
    unfold resolvedCount
    exact List.length_filter_le _ text
  have hrl : (resolvedText host render text).length = resolvedCount host render text := rfl
  have hinit : SamePlacement (initLoop lim (resetText ftext1 text.length))
      (initLoop lim (resetText ftext2 (resolvedText host render text).length)) := by
    simp [SamePlacement, initLoop]
  have hsim := layoutLoop_SamePlacement hk text hloop hloop1 hinit
    (by simp only [initLoop, resetText, zero_add]; omega)
    (by simp only [initLoop, resetText, zero_add]; omega)
    (by simp only [initLoop, resetText, zero_add]; omega)
    (by simp only [initLoop, resetText, zero_add]; omega)
  have hext := finalExtents_SamePlacement ft face font render hsim
  obtain ⟨hcount, _, _, _⟩ := layoutLoop_frame text hloop
  have hcount0 : s.count = resolvedCount host render text := by
    rw [hcount]
    simp [initLoop]
  obtain ⟨hpen, _, _, _, _, _, htop, hc, _, hp⟩ := hsim
  subst hr hr1
  refine ⟨?_, ?_, ?_, ?_, ?_, ?_, ?_, ?_⟩
  · simp only [finalise]
    rw [← hc, hcount0] at hp
    exact hp
  · simp only [finalise]
    exact hpen
  · simp only [finalise, hext]
  · simp only [finalise, hext]
  · simp only [finalise, hext]
  · simp only [finalise, hext]
  · simp only [finalise, htop]
  · intro face1 s0 ch hnone
    exact loopStep_unresolved ft host face1 font render s0 ch hnone

/-- C14 amended, on the example font without kerning: the text `A`, U+2603,
`B` and the text `AB`. -/
theorem LoadFontText_unresolved_removed_witness :
    resolvedText demoHost demoRender [65, 9731, 66] = [65, 66] ∧
    PGFT_LoadFontText demoFreeType demoLimits demoHost demoPlainFont PGFT_FontTextInit
        demoRender [65, 9731, 66] =
      some (demoLayout demoPlainFont demoRender [65, 9731, 66]) ∧
    PGFT_LoadFontText demoFreeType demoLimits demoHost demoPlainFont PGFT_FontTextInit
        demoRender [65, 66] = some (demoLayout demoPlainFont demoRender [65, 66]) ∧
    (demoLayout demoPlainFont demoRender [65, 9731, 66]).advance =
      (demoLayout demoPlainFont demoRender [65, 66]).advance ∧
    (demoLayout demoPlainFont demoRender [65, 9731, 66]).width =
      (demoLayout demoPlainFont demoRender [65, 66]).width :=
  ⟨by decide, by decide, by decide,
   (LoadFontText_unresolved_removed demoFreeType demoLimits demoHost demoPlainFont
      PGFT_FontTextInit demoRender [65, 9731, 66] _ _ ⟨rfl, rfl⟩ rfl (by decide)
      (by decide)).2.1,
   (LoadFontText_unresolved_removed demoFreeType demoLimits demoHost demoPlainFont
      PGFT_FontTextInit demoRender [65, 9731, 66] _ _ ⟨rfl, rfl⟩ rfl (by decide)
      (by decide)).2.2.2.1⟩

end FtText
